import Mathlib

/-!
XPong: a shallow embedding of `pong.c`.

The game logic of `pong.c` (the three game states, the player and bar physics, the column
wipe played after a death, and the key handlers) is translated function by function into
pure state-passing definitions over a record of the program's global variables.  Calls into
Xlib only draw; they do not touch any of the modelled variables and are left out.

Integer model.  `unsigned int` values are integers kept in `[0, 2^32)` by an explicit
reduction modulo `2^32` after every operation; the `unsigned char` direction is a natural
number (for the bit operations) reduced modulo `256` after every update; `int` and `short`
values are mathematical integers (signed overflow is undefined behaviour in C, and none of
the modelled computations overflows on the states the program reaches).  Conversions
between `int` and `unsigned int` are written out (`toUnsigned`, `toInt`).
-/

namespace XPong

/-! ## Constants -/

/-- The macro `PLAYER_SIZE`. -/
def PLAYER_SIZE : Int := 35
/-- The macro `BAR_OFFSET`. -/
def BAR_OFFSET : Int := 50
/-- The macro `MOVE_FACTOR`. -/
def MOVE_FACTOR : Int := 10

/-- Number of values of an `unsigned int`. -/
def UINT_RANGE : Int := 4294967296

/-- Key symbol `XK_Return` of `X11/keysymdef.h`. -/
def XK_Return : Int := 0xff0d
/-- Key symbol `XK_Escape` of `X11/keysymdef.h`. -/
def XK_Escape : Int := 0xff1b
/-- Key symbol `XK_Up` of `X11/keysymdef.h`. -/
def XK_Up : Int := 0xff52
/-- Key symbol `XK_Down` of `X11/keysymdef.h`. -/
def XK_Down : Int := 0xff54
/-- Key symbol `XK_q` of `X11/keysymdef.h`. -/
def XK_q : Int := 0x0071

/-! ## Machine arithmetic -/

/-- Conversion of an `int` to `unsigned int`. -/
def toUnsigned (i : Int) : Int := i % UINT_RANGE

/-- Conversion of an `unsigned int` to `int` (two's complement). -/
def toInt (u : Int) : Int :=
  if u % UINT_RANGE < 2147483648 then u % UINT_RANGE else u % UINT_RANGE - UINT_RANGE

/-- Sum of two `unsigned int`. -/
def uadd (a b : Int) : Int := (a + b) % UINT_RANGE

/-- Difference of two `unsigned int`. -/
def usub (a b : Int) : Int := (a - b) % UINT_RANGE

/-- Unary minus on an `unsigned int`. -/
def uneg (a : Int) : Int := (-a) % UINT_RANGE

/-- The macro `BETWEEN(thing, min, max)`. -/
def BETWEEN (thing min max : Int) : Bool := decide (min ≤ thing) && decide (thing ≤ max)

/-! ## Data model -/

/-- The enum `Gamestate`. -/
inductive Gamestate where
  | GSTitle
  | GSPlaying
  | GSDead
  deriving DecidableEq, Repr

/-- The struct `Dimensions` (two `unsigned int`). -/
structure Dimensions where
  width : Int
  height : Int
  deriving DecidableEq, Repr

/-- The struct `Player`: `direction` is an `unsigned char` with bit 0 the horizontal axis
(0 left, 1 right) and bit 1 the vertical axis; `score` is an `unsigned int`. -/
structure Player where
  x : Int
  y : Int
  direction : Nat
  deadtime : Int
  score : Int
  deriving DecidableEq, Repr

/-- The struct `Bar`. -/
structure Bar where
  x : Int
  y : Int
  edge_x : Int
  deriving DecidableEq, Repr

/-- The struct `Wipe`: `offs` is the array of `short` column offsets, `bs` the block size. -/
structure Wipe where
  offs : List Int
  bs : Int
  deriving DecidableEq, Repr

/-- The global variables of the program that the game logic reads or writes.  The array
`bars[2]` is the pair (`bars[BarLeft]`, `bars[BarRight]`); the pointer `activebar` always
points into `bars` and is kept as the index of the element it points to. -/
structure State where
  gamestate : Gamestate
  winsz : Dimensions
  barsz : Dimensions
  bars : Bar × Bar
  activebar : Nat
  barmove : Int
  player : Player
  wipe : Wipe
  quit : Int
  deriving DecidableEq, Repr

/-- Read `bars[i]`. -/
def getbar (b : Bar × Bar) (i : Nat) : Bar := if i = 0 then b.1 else b.2

/-- Write `bars[i]`. -/
def setbar (b : Bar × Bar) (i : Nat) (v : Bar) : Bar × Bar :=
  if i = 0 then (v, b.2) else (b.1, v)

/-! ## Functions of `pong.c` -/

/-- The function `nextstate`: advance the game state cyclically, set `deadtime = -1`, and on
entry into the title reset the score, both bars' `y` and the player's position. -/
def nextstate (s : State) : State :=
  let gs : Gamestate :=
    match s.gamestate with
    | Gamestate.GSTitle => Gamestate.GSPlaying
    | Gamestate.GSPlaying => Gamestate.GSDead
    | Gamestate.GSDead => Gamestate.GSTitle
  let s1 : State := { s with gamestate := gs, player := { s.player with deadtime := -1 } }
  match gs with
  | Gamestate.GSTitle =>
    { s1 with
      player := { s1.player with
        score := 0,
        x := toInt (usub s1.winsz.width (toUnsigned PLAYER_SIZE) / 2),
        y := toInt (usub s1.winsz.height (toUnsigned PLAYER_SIZE) / 2) },
      bars := ({ s1.bars.1 with y := 0 }, { s1.bars.2 with y := 0 }) }
  | Gamestate.GSPlaying => s1
  | Gamestate.GSDead => s1

/-- The function `bounceplayer`. -/
def bounceplayer (s : State) : State :=
  let dy0 : Int := ((s.player.direction &&& 2 : Nat) : Int) - 1
  let lasty : Int := s.player.y
  let dy : Int := dy0 * MOVE_FACTOR
  let y1 : Int := lasty + dy
  if !BETWEEN y1 0 (toInt s.winsz.height - PLAYER_SIZE) then
    { s with player := { s.player with
        y := lasty - dy,
        direction := (s.player.direction ^^^ 2) % 256 } }
  else
    { s with player := { s.player with y := y1 } }

/-- The function `touchingbar`. -/
def touchingbar (s : State) : Bool :=
  let ab : Bar := getbar s.bars s.activebar
  let barymin : Int := toInt (uadd (usub s.winsz.height s.barsz.height / 2) (toUnsigned (-ab.y)))
  let barymax : Int := toInt (uadd (uadd s.winsz.height s.barsz.height / 2) (toUnsigned (-ab.y)))
  BETWEEN ab.edge_x s.player.x (s.player.x + PLAYER_SIZE) && BETWEEN s.player.y barymin barymax

/-- Lower bound of the bar range in `play`: `(int) -(winsz.height-barsz.height)/2`.  The cast
binds tighter than the division, so the negated unsigned difference is converted first. -/
def barlo (s : State) : Int := Int.tdiv (toInt (uneg (usub s.winsz.height s.barsz.height))) 2

/-- Upper bound of the bar range in `play`: `(int) (winsz.height-barsz.height)/2`. -/
def barhi (s : State) : Int := Int.tdiv (toInt (usub s.winsz.height s.barsz.height)) 2

/-- The player's horizontal step in `play`: `(((direction & 1) << 1) - 1) * MOVE_FACTOR`. -/
def stepx (s : State) : Int :=
  ((((s.player.direction &&& 1) <<< 1 : Nat) : Int) - 1) * MOVE_FACTOR

/-- The player's vertical step in `play`: `((direction & 2) - 1) * MOVE_FACTOR`. -/
def stepy (s : State) : Int :=
  (((s.player.direction &&& 2 : Nat) : Int) - 1) * MOVE_FACTOR

/-- First part of `play` (lines "move bar"): the active bar moved by `barmove * MOVE_FACTOR`,
or left where it was when the move would leave the bar range. -/
def movebar (s : State) : State :=
  let ab : Bar := getbar s.bars s.activebar
  let lastbary : Int := ab.y
  let y1 : Int := ab.y + s.barmove * MOVE_FACTOR
  let y2 : Int := if !BETWEEN y1 (barlo s) (barhi s) then lastbary else y1
  { s with bars := setbar s.bars s.activebar { ab with y := y2 } }

/-- The state of `play` just before its collision checks: the bar moved (`movebar`) and the
player stepped on both axes (`player.x += dx; player.y += dy`). -/
def moveplayer (s : State) : State :=
  let s1 : State := movebar s
  { s1 with player := { s1.player with x := s.player.x + stepx s, y := s.player.y + stepy s } }

/-- The state of `play` just before the call of `touchingbar`, on the path that passed the
horizontal check: the vertical check `if(!BETWEEN(player.y, ...))` applied to the moved
state, with `lasty` and `dy` taken from the state at the start of the tick. -/
def wallbounce (s : State) : State :=
  let s2 : State := moveplayer s
  if !BETWEEN s2.player.y 0 (toInt s2.winsz.height - PLAYER_SIZE) then
    { s2 with player := { s2.player with
        direction := (s2.player.direction ^^^ 2) % 256,
        y := s.player.y - stepy s } }
  else s2

/-- The function `play`. -/
def play (s : State) : State :=
  let s2 : State := moveplayer s
  if !BETWEEN s2.player.x 0 (toInt s2.winsz.width - PLAYER_SIZE) then
    nextstate s2
  else
    let s3 : State := wallbounce s
    if touchingbar s3 then
      let d : Nat := (s3.player.direction ^^^ 1) % 256
      { s3 with
        player := { s3.player with
          score := (s3.player.score + 1) % UINT_RANGE,
          direction := d,
          x := s.player.x - stepx s },
        activebar := d &&& 1,
        barmove := 0 }
    else s3

/-- The number of wipe columns, `(winsz.width + wipe.bs - 1) / wipe.bs`, computed in
`unsigned int` and stored in an `int`. -/
def blocks (s : State) : Int :=
  toInt (usub (uadd s.winsz.width (toUnsigned s.wipe.bs)) 1 / toUnsigned s.wipe.bs)

/-- The first loop of `dowipe`: `for(i...) wipe.offs[i] = -(rand() % 10)`, run for `n` more
rounds from index `i`; `rnd k` is the value of the `k`-th call of `rand()` after `srand`. -/
def randomize (rnd : Nat → Nat) : Nat → Nat → List Int → List Int
  | 0, _, offs => offs
  | n + 1, i, offs => randomize rnd n (i + 1) (offs.set i (-((rnd i % 10 : Nat) : Int)))

/-- The second loop of `dowipe`, run for `n` more rounds from index `i`, on the offsets and
the flag `done`. -/
def wipeloop (height bs : Int) : Nat → Nat → List Int → Bool → List Int × Bool
  | 0, _, offs, done => (offs, done)
  | n + 1, i, offs, done =>
    if offs.getD i 0 < 0 then
      wipeloop height bs n (i + 1) (offs.set i (offs.getD i 0 + 1)) false
    else if offs.getD i 0 < height then
      wipeloop height bs n (i + 1) (offs.set i (offs.getD i 0 + bs)) false
    else
      wipeloop height bs n (i + 1) offs done

/-- The function `dowipe`; `rnd` is the sequence of values `rand()` returns after the
`srand(time(NULL))` of this call. -/
def dowipe (rnd : Nat → Nat) (s : State) : State :=
  let n : Nat := (blocks s).toNat
  let s1 : State :=
    if s.player.deadtime = 0 then
      { s with wipe := { s.wipe with offs := randomize rnd n 0 s.wipe.offs } }
    else s
  let s2 : State := { s1 with player := { s1.player with deadtime := s1.player.deadtime + 1 } }
  if s2.player.deadtime < 10 then s2
  else
    let r : List Int × Bool := wipeloop (toInt s2.winsz.height) s2.wipe.bs n 0 s2.wipe.offs true
    let s3 : State := { s2 with wipe := { s2.wipe with offs := r.1 } }
    if r.2 then nextstate s3 else s3

/-- The state of `dowipe` after its first part: the first loop, run when `deadtime == 0`,
and `++player.deadtime`. -/
def wipehead (rnd : Nat → Nat) (s : State) : State :=
  let n : Nat := (blocks s).toNat
  let s1 : State :=
    if s.player.deadtime = 0 then
      { s with wipe := { s.wipe with offs := randomize rnd n 0 s.wipe.offs } }
    else s
  { s1 with player := { s1.player with deadtime := s1.player.deadtime + 1 } }

/-- The function `keypress`, on the key symbol `ks` of the event. -/
def keypress (ks : Int) (s : State) : State :=
  let s1 : State :=
    if s.gamestate = Gamestate.GSTitle ∧ ks = XK_Return then nextstate s else s
  let s2 : State := if ks = XK_q ∨ ks = XK_Escape then { s1 with quit := 1 } else s1
  if s2.gamestate = Gamestate.GSPlaying then
    let s3 : State := if ks = XK_Up then { s2 with barmove := 1 } else s2
    if ks = XK_Down then { s3 with barmove := -1 } else s3
  else s2

/-- The function `keyrelease`, on the key symbol `ks` of the event. -/
def keyrelease (ks : Int) (s : State) : State :=
  if s.gamestate = Gamestate.GSPlaying then
    if ks = XK_Up ∨ ks = XK_Down then { s with barmove := 0 } else s
  else s

/-- The function `message`; `del` says whether the message carries `WM_DELETE`. -/
def message (del : Bool) (s : State) : State :=
  if del then { s with quit := 1 } else s

/-- The variables as they are before `init`: static storage is zero-initialised. -/
def statics : State :=
  { gamestate := Gamestate.GSTitle
    winsz := ⟨0, 0⟩
    barsz := ⟨0, 0⟩
    bars := (⟨0, 0, 0⟩, ⟨0, 0, 0⟩)
    activebar := 0
    barmove := 0
    player := ⟨0, 0, 0, 0, 0⟩
    wipe := ⟨[], 0⟩
    quit := 0 }

/-- The function `init` (the part that sets modelled variables). -/
def init (s : State) : State :=
  let winsz : Dimensions := ⟨1280, 720⟩
  let barsz : Dimensions := ⟨toUnsigned PLAYER_SIZE, winsz.height / 2⟩
  let bs : Int := 16
  let offs : List Int :=
    List.replicate (usub (uadd winsz.width (toUnsigned bs)) 1 / toUnsigned bs).toNat 0
  let player : Player := { s.player with
    x := toInt (usub winsz.width (toUnsigned PLAYER_SIZE) / 2),
    y := toInt (usub winsz.height (toUnsigned PLAYER_SIZE) / 2),
    direction := 0 }
  let rx : Int := toInt (usub (usub winsz.width (toUnsigned BAR_OFFSET)) barsz.width)
  { s with
    winsz := winsz
    barsz := barsz
    wipe := ⟨offs, bs⟩
    player := player
    bars := ({ s.bars.1 with
                x := BAR_OFFSET,
                edge_x := toInt (uadd (toUnsigned BAR_OFFSET) barsz.width) },
             { s.bars.2 with x := rx, edge_x := rx })
    activebar := player.direction &&& 1 }

/-- The state in which `run` starts: `init` applied to the zeroed statics. -/
def initial : State := init statics

/-- The events for which `handlers` has an entry; every other event type is ignored. -/
inductive Event where
  | keypress (ks : Int)
  | keyrelease (ks : Int)
  | message (del : Bool)
  | other
  deriving DecidableEq, Repr

/-- Dispatch of one event through the table `handlers` (in `run`). -/
def handle (e : Event) (s : State) : State :=
  match e with
  | Event.keypress ks => keypress ks s
  | Event.keyrelease ks => keyrelease ks s
  | Event.message del => message del s
  | Event.other => s

/-- The `switch(gamestate)` of `run`: the update made by one tick. -/
def tick (rnd : Nat → Nat) (s : State) : State :=
  match s.gamestate with
  | Gamestate.GSTitle => bounceplayer s
  | Gamestate.GSPlaying => play s
  | Gamestate.GSDead => dowipe rnd s

/-- The states of `run`: the initial state, closed under handled events and ticks.  (The
flag `quit` only ends the loop, so leaving it out of the step rules can only add states.) -/
inductive Reachable : State → Prop where
  | init : Reachable initial
  | event (e : Event) (s : State) : Reachable s → Reachable (handle e s)
  | tick (rnd : Nat → Nat) (s : State) : Reachable s → Reachable (tick rnd s)

/-! ## Invariant of the reachable states -/

/-- The variables that `init` sets once and nothing changes afterwards, at their values. -/
structure Configured (s : State) : Prop where
  winsz : s.winsz = ⟨1280, 720⟩
  barsz : s.barsz = ⟨35, 360⟩
  bs : s.wipe.bs = 16
  noffs : s.wipe.offs.length = 80
  lx : s.bars.1.x = 50
  ledge : s.bars.1.edge_x = 85
  rx : s.bars.2.x = 1195
  redge : s.bars.2.edge_x = 1195

/-- The part of the invariant that does not depend on the game state: the configuration,
the active bar matching the horizontal direction, both bars in range, and a bar-move
intent of -1, 0 or 1. -/
structure Core (s : State) : Prop where
  cfg : Configured s
  active : s.activebar = s.player.direction &&& 1
  ly : -180 ≤ s.bars.1.y ∧ s.bars.1.y ≤ 180
  ry : -180 ≤ s.bars.2.y ∧ s.bars.2.y ≤ 180
  bm : s.barmove = -1 ∨ s.barmove = 0 ∨ s.barmove = 1

/-- The player's square lies inside the arena. -/
def InArena (s : State) : Prop :=
  0 ≤ s.player.x ∧ s.player.x ≤ 1245 ∧ 0 ≤ s.player.y ∧ s.player.y ≤ 685

/-- The invariant kept by every handler and every tick. -/
structure Inv (s : State) : Prop where
  core : Core s
  pos : s.gamestate ≠ Gamestate.GSDead → InArena s

/-- The value `play` leaves in the active bar's `y` when the bar range is `[-180, 180]`. -/
def newbary (s : State) : Int :=
  if -180 ≤ (getbar s.bars s.activebar).y + s.barmove * 10
      ∧ (getbar s.bars s.activebar).y + s.barmove * 10 ≤ 180
  then (getbar s.bars s.activebar).y + s.barmove * 10
  else (getbar s.bars s.activebar).y

/-! ## The wipe, column by column -/

/-- Effect of one round of the second loop of `dowipe` on the offset it visits. -/
def colstep (height bs o : Int) : Int :=
  if o < 0 then o + 1 else if o < height then o + bs else o

/-- The offsets the first loop of `dowipe` writes into `n` columns. -/
def stagger (rnd : Nat → Nat) (n : Nat) : List Int :=
  (List.range n).map (fun i => -((rnd i % 10 : Nat) : Int))

/-- The state after `n` ticks in a row, the `k`-th of them (from 0) drawing its random
values from `rnds k`. -/
def ticks (rnds : Nat → Nat → Nat) : Nat → State → State
  | 0, s => s
  | n + 1, s => tick (rnds n) (ticks rnds n s)

/-- The largest stagger value `rnd i % 10` among the first `n` columns. -/
def maxStagger (rnd : Nat → Nat) : Nat → Nat
  | 0 => 0
  | n + 1 => max (maxStagger rnd n) (rnd n % 10)

/-! ## Concrete states used as test inputs -/

/-- The state in which the first round starts: `init`, then the Return key. -/
def started : State := handle (Event.keypress XK_Return) initial

/-- The state at the first death when no key but Return is pressed: the player has bounced
off the left bar once (score 1) and left the arena on the right. -/
def afterDeath : State :=
  { gamestate := Gamestate.GSDead
    winsz := ⟨1280, 720⟩
    barsz := ⟨35, 360⟩
    bars := (⟨50, 0, 85⟩, ⟨1195, 0, 1195⟩)
    activebar := 1
    barmove := 0
    player := ⟨1252, 12, 1, -1, 1⟩
    wipe := ⟨List.replicate 80 0, 16⟩
    quit := 0 }

/-- The state `afterDeath` 55 ticks later when every stagger value drawn is 0: all columns
are wiped and the next tick finds nothing to advance. -/
def wipeDone : State :=
  { gamestate := Gamestate.GSDead
    winsz := ⟨1280, 720⟩
    barsz := ⟨35, 360⟩
    bars := (⟨50, 0, 85⟩, ⟨1195, 0, 1195⟩)
    activebar := 1
    barmove := 0
    player := ⟨1252, 12, 1, 54, 1⟩
    wipe := ⟨List.replicate 80 720, 16⟩
    quit := 0 }

/-- The state 53 ticks after `started` when no further key is pressed: the player, moving
Left and Up, is one step away from the left bar. -/
def beforeTouch : State :=
  { gamestate := Gamestate.GSPlaying
    winsz := ⟨1280, 720⟩
    barsz := ⟨35, 360⟩
    bars := (⟨50, 0, 85⟩, ⟨1195, 0, 1195⟩)
    activebar := 0
    barmove := 0
    player := ⟨92, 192, 2, -1, 0⟩
    wipe := ⟨List.replicate 80 0, 16⟩
    quit := 0 }

/-- The touch scenario of the specification: Playing, the player at `x = 90` moving Left
(and Down) with `y = 342` inside the bar span, the left bar active with `edge_x = 85` and
bar `y = 0`. -/
def touchScenario : State :=
  { gamestate := Gamestate.GSPlaying
    winsz := ⟨1280, 720⟩
    barsz := ⟨35, 360⟩
    bars := (⟨50, 0, 85⟩, ⟨1195, 0, 1195⟩)
    activebar := 0
    barmove := 0
    player := ⟨90, 342, 0, -1, 0⟩
    wipe := ⟨List.replicate 80 0, 16⟩
    quit := 0 }

/-- The exit scenario of the specification: Playing, the player at `x = 0` moving Left, so
that the next step leaves the arena on the left (no bar is near). -/
def exitScenario : State :=
  { gamestate := Gamestate.GSPlaying
    winsz := ⟨1280, 720⟩
    barsz := ⟨35, 360⟩
    bars := (⟨50, 0, 85⟩, ⟨1195, 0, 1195⟩)
    activebar := 0
    barmove := 0
    player := ⟨0, 342, 0, -1, 0⟩
    wipe := ⟨List.replicate 80 0, 16⟩
    quit := 0 }

/-- The approach scenario of the specification: Playing, the player at `x = 100` moving
Left, the left bar active with `edge_x = 85` and bar `y = 0`. -/
def approachScenario : State :=
  { gamestate := Gamestate.GSPlaying
    winsz := ⟨1280, 720⟩
    barsz := ⟨35, 360⟩
    bars := (⟨50, 0, 85⟩, ⟨1195, 0, 1195⟩)
    activebar := 0
    barmove := 0
    player := ⟨100, 342, 0, -1, 0⟩
    wipe := ⟨List.replicate 80 0, 16⟩
    quit := 0 }

/-- The state 34 ticks after `started` when no further key is pressed: the player, moving
Left and Down, has come down to `y = 2`, one step above the bottom of the range. -/
def lowPlaying : State :=
  { gamestate := Gamestate.GSPlaying
    winsz := ⟨1280, 720⟩
    barsz := ⟨35, 360⟩
    bars := (⟨50, 0, 85⟩, ⟨1195, 0, 1195⟩)
    activebar := 0
    barmove := 0
    player := ⟨282, 2, 0, -1, 0⟩
    wipe := ⟨List.replicate 80 0, 16⟩
    quit := 0 }

/-- The state 34 ticks after `initial` when no key is pressed: still in the title, the
bouncing player has come down to `y = 2`. -/
def lowTitle : State :=
  { gamestate := Gamestate.GSTitle
    winsz := ⟨1280, 720⟩
    barsz := ⟨35, 360⟩
    bars := (⟨50, 0, 85⟩, ⟨1195, 0, 1195⟩)
    activebar := 0
    barmove := 0
    player := ⟨622, 2, 0, 0, 0⟩
    wipe := ⟨List.replicate 80 0, 16⟩
    quit := 0 }

/-- The title entered at the end of the first wipe (the tick after `wipeDone`): the column
offsets of the finished wipe, all 720, are still in place. -/
def titleAgain : State :=
  { gamestate := Gamestate.GSTitle
    winsz := ⟨1280, 720⟩
    barsz := ⟨35, 360⟩
    bars := (⟨50, 0, 85⟩, ⟨1195, 0, 1195⟩)
    activebar := 1
    barmove := 0
    player := ⟨622, 342, 1, -1, 0⟩
    wipe := ⟨List.replicate 80 720, 16⟩
    quit := 0 }

/-- The state at the second death when Return is pressed in `titleAgain` and no other key:
the player has bounced off the right bar once and left the arena on the left. -/
def secondDeath : State :=
  { gamestate := Gamestate.GSDead
    winsz := ⟨1280, 720⟩
    barsz := ⟨35, 360⟩
    bars := (⟨50, 0, 85⟩, ⟨1195, 0, 1195⟩)
    activebar := 0
    barmove := 0
    player := ⟨-8, 12, 0, -1, 1⟩
    wipe := ⟨List.replicate 80 720, 16⟩
    quit := 0 }

/-- The state one tick after `secondDeath`: the counter is 0 and the offsets are still the
720 left by the first wipe. -/
def staleWipe : State :=
  { gamestate := Gamestate.GSDead
    winsz := ⟨1280, 720⟩
    barsz := ⟨35, 360⟩
    bars := (⟨50, 0, 85⟩, ⟨1195, 0, 1195⟩)
    activebar := 0
    barmove := 0
    player := ⟨-8, 12, 0, 0, 1⟩
    wipe := ⟨List.replicate 80 720, 16⟩
    quit := 0 }

/-! ## The course of a wipe -/

/-- The state `s` with the wipe counter and the column offsets replaced. -/
def wipeState (s : State) (d : Int) (offs : List Int) : State :=
  { s with wipe := { s.wipe with offs := offs }, player := { s.player with deadtime := d } }

/-- The offset of a column after `j` rounds of the second loop of `dowipe`
(arena height 720, block size 16). -/
def colAfter : Nat → Int → Int
  | 0, o => o
  | j + 1, o => colstep 720 16 (colAfter j o)

/-- The test the second loop of `dowipe` makes on a column that leaves `done` set. -/
def colDone (o : Int) : Bool := decide (720 ≤ o) && decide (0 ≤ o)

/-! ## Phases of an execution -/

/-- The states that come after `s` while the game has not left the Dead state: `s` itself,
and the state after an event or a tick taken in a Dead state of the phase.  The last state
of a phase can be the title entered by the tick that ends the wipe. -/
inductive DeadPhase (s : State) : State → Prop where
  | start : DeadPhase s s
  | event (e : Event) (t : State) :
      DeadPhase s t → t.gamestate = Gamestate.GSDead → DeadPhase s (handle e t)
  | tick (rnd : Nat → Nat) (t : State) :
      DeadPhase s t → t.gamestate = Gamestate.GSDead → DeadPhase s (tick rnd t)

/-- The states that come after `s` while the game has not left the title: `s` itself, and
the state after an event or a tick taken in a Title state of the phase.  The last state of
a phase can be the Playing state entered by the Return key. -/
inductive TitlePhase (s : State) : State → Prop where
  | start : TitlePhase s s
  | event (e : Event) (t : State) :
      TitlePhase s t → t.gamestate = Gamestate.GSTitle → TitlePhase s (handle e t)
  | tick (rnd : Nat → Nat) (t : State) :
      TitlePhase s t → t.gamestate = Gamestate.GSTitle → TitlePhase s (tick rnd t)

/-! ## Bit arithmetic of the direction byte -/

theorem testBit_one (i : Nat) : (1 : Nat).testBit i = decide (i = 0) := by
  cases i with
  | zero => rfl
  | succ n => simp [Nat.testBit_succ]

theorem testBit_two (i : Nat) : (2 : Nat).testBit i = decide (i = 1) := by
  have h : (2 ^ 1 : Nat).testBit i = decide (1 = i) := Nat.testBit_two_pow
  rw [pow_one] at h
  rw [h]
  by_cases e : i = 1
  · subst e; simp
  · have e2 : ¬ (1 = i) := fun q => e q.symm
    simp [e, e2]

theorem xor_two_and_one (d : Nat) : ((d ^^^ 2) % 256) &&& 1 = d &&& 1 := by
  apply Nat.eq_of_testBit_eq
  intro i
  have h256 : (256 : Nat) = 2 ^ 8 := by norm_num
  rw [h256]
  simp only [Nat.testBit_and, Nat.testBit_xor, Nat.testBit_mod_two_pow, testBit_one, testBit_two]
  by_cases h : i = 0
  · subst h; simp
  · simp [h]

theorem xor_one_and_two (d : Nat) : ((d ^^^ 1) % 256) &&& 2 = d &&& 2 := by
  apply Nat.eq_of_testBit_eq
  intro i
  have h256 : (256 : Nat) = 2 ^ 8 := by norm_num
  rw [h256]
  simp only [Nat.testBit_and, Nat.testBit_xor, Nat.testBit_mod_two_pow, testBit_one, testBit_two]
  by_cases h : i = 1
  · subst h; simp
  · simp [h]

theorem xor_one_and_one (d : Nat) : ((d ^^^ 1) % 256) &&& 1 = 1 - (d &&& 1) := by
  rw [Nat.and_one_is_mod, Nat.and_one_is_mod]
  have h : (d ^^^ 1) % 256 % 2 = (d ^^^ 1) % 2 := Nat.mod_mod_of_dvd _ (by norm_num)
  rw [h]
  have h2 := Nat.xor_mod_two_eq_one (a := d) (b := 1)
  omega

theorem xor_two_and_two (d : Nat) : ((d ^^^ 2) % 256) &&& 2 = 2 - (d &&& 2) := by
  have e1 := Nat.and_two_pow ((d ^^^ 2) % 256) 1
  have e2 := Nat.and_two_pow d 1
  simp only [pow_one] at e1 e2
  rw [e1, e2]
  have h256 : (256 : Nat) = 2 ^ 8 := by norm_num
  rw [h256]
  simp only [Nat.testBit_xor, Nat.testBit_mod_two_pow, testBit_two]
  cases d.testBit 1 <;> simp

theorem and_two_cases (d : Nat) : d &&& 2 = 0 ∨ d &&& 2 = 2 := by
  have h := Nat.and_two_pow d 1
  simp only [pow_one] at h
  rw [h]
  cases d.testBit 1 <;> simp

theorem and_one_cases (d : Nat) : d &&& 1 = 0 ∨ d &&& 1 = 1 := by
  rw [Nat.and_one_is_mod]; omega

theorem stepx_cases (s : State) :
    (s.player.direction &&& 1 = 0 ∧ stepx s = -10)
      ∨ (s.player.direction &&& 1 = 1 ∧ stepx s = 10) := by
  unfold stepx MOVE_FACTOR
  rcases and_one_cases s.player.direction with h | h <;> simp [h]

theorem stepy_cases (s : State) :
    (s.player.direction &&& 2 = 0 ∧ stepy s = -10)
      ∨ (s.player.direction &&& 2 = 2 ∧ stepy s = 10) := by
  unfold stepy MOVE_FACTOR
  rcases and_two_cases s.player.direction with h | h <;> simp [h]

/-! ## The machine arithmetic at the values fixed by `init` -/

theorem BETWEEN_iff (t a b : Int) : BETWEEN t a b = true ↔ a ≤ t ∧ t ≤ b := by
  simp [BETWEEN]

theorem not_BETWEEN_iff (t a b : Int) : (!BETWEEN t a b) = true ↔ ¬ (a ≤ t ∧ t ≤ b) := by
  rw [Bool.not_eq_true', ← BETWEEN_iff]
  cases BETWEEN t a b <;> simp

theorem width_bound : toInt 1280 - PLAYER_SIZE = 1245 := by decide
theorem height_bound : toInt 720 - PLAYER_SIZE = 685 := by decide
theorem centre_x : toInt (usub 1280 (toUnsigned PLAYER_SIZE) / 2) = 622 := by decide
theorem centre_y : toInt (usub 720 (toUnsigned PLAYER_SIZE) / 2) = 342 := by decide
theorem barlo_val : Int.tdiv (toInt (uneg (usub 720 360))) 2 = -180 := by decide
theorem barhi_val : Int.tdiv (toInt (usub 720 360)) 2 = 180 := by decide
theorem blocks_val : toInt (usub (uadd 1280 (toUnsigned 16)) 1 / toUnsigned 16) = 80 := by decide

theorem barymin_eval (y : Int) (h1 : -180 ≤ y) (h2 : y ≤ 180) :
    toInt (uadd (usub 720 360 / 2) (toUnsigned (-y))) = 180 - y := by
  have e : usub 720 360 / 2 = 180 := by decide
  rw [e]
  unfold toInt uadd toUnsigned UINT_RANGE
  split <;> omega

theorem barymax_eval (y : Int) (h1 : -180 ≤ y) (h2 : y ≤ 180) :
    toInt (uadd (uadd 720 360 / 2) (toUnsigned (-y))) = 540 - y := by
  have e : uadd 720 360 / 2 = 540 := by decide
  rw [e]
  unfold toInt uadd toUnsigned UINT_RANGE
  split <;> omega

/-! ## Invariant of the reachable states: preservation -/

theorem nextstate_of_title (s : State) (h : s.gamestate = Gamestate.GSTitle) :
    nextstate s = { s with gamestate := Gamestate.GSPlaying,
                           player := { s.player with deadtime := -1 } } := by
  unfold nextstate; simp [h]

theorem nextstate_of_playing (s : State) (h : s.gamestate = Gamestate.GSPlaying) :
    nextstate s = { s with gamestate := Gamestate.GSDead,
                           player := { s.player with deadtime := -1 } } := by
  unfold nextstate; simp [h]

theorem nextstate_of_dead (s : State) (h : s.gamestate = Gamestate.GSDead) :
    nextstate s = { s with
      gamestate := Gamestate.GSTitle,
      player := { s.player with
        deadtime := -1, score := 0,
        x := toInt (usub s.winsz.width (toUnsigned PLAYER_SIZE) / 2),
        y := toInt (usub s.winsz.height (toUnsigned PLAYER_SIZE) / 2) },
      bars := ({ s.bars.1 with y := 0 }, { s.bars.2 with y := 0 }) } := by
  unfold nextstate; simp [h]

theorem nextstate_core (s : State) (h : Core s) : Core (nextstate s) := by
  obtain ⟨⟨c1, c2, c3, c4, c5, c6, c7, c8⟩, ha, hl, hr, hb⟩ := h
  cases hg : s.gamestate
  · rw [nextstate_of_title s hg]
    exact ⟨⟨c1, c2, c3, c4, c5, c6, c7, c8⟩, ha, hl, hr, hb⟩
  · rw [nextstate_of_playing s hg]
    exact ⟨⟨c1, c2, c3, c4, c5, c6, c7, c8⟩, ha, hl, hr, hb⟩
  · rw [nextstate_of_dead s hg]
    refine ⟨⟨c1, c2, c3, c4, c5, c6, c7, c8⟩, ha, ?_, ?_, hb⟩
    · show (-180 : Int) ≤ 0 ∧ (0 : Int) ≤ 180
      omega
    · show (-180 : Int) ≤ 0 ∧ (0 : Int) ≤ 180
      omega

theorem nextstate_pos (s : State) (c1 : s.winsz = ⟨1280, 720⟩)
    (hp : s.gamestate = Gamestate.GSTitle → InArena s) :
    (nextstate s).gamestate ≠ Gamestate.GSDead → InArena (nextstate s) := by
  cases hg : s.gamestate
  · rw [nextstate_of_title s hg]
    exact fun _ => hp hg
  · rw [nextstate_of_playing s hg]
    exact fun hne => absurd rfl hne
  · rw [nextstate_of_dead s hg]
    intro _
    show 0 ≤ toInt (usub s.winsz.width (toUnsigned PLAYER_SIZE) / 2)
        ∧ toInt (usub s.winsz.width (toUnsigned PLAYER_SIZE) / 2) ≤ 1245
        ∧ 0 ≤ toInt (usub s.winsz.height (toUnsigned PLAYER_SIZE) / 2)
        ∧ toInt (usub s.winsz.height (toUnsigned PLAYER_SIZE) / 2) ≤ 685
    rw [c1]
    show 0 ≤ toInt (usub 1280 (toUnsigned PLAYER_SIZE) / 2)
        ∧ toInt (usub 1280 (toUnsigned PLAYER_SIZE) / 2) ≤ 1245
        ∧ 0 ≤ toInt (usub 720 (toUnsigned PLAYER_SIZE) / 2)
        ∧ toInt (usub 720 (toUnsigned PLAYER_SIZE) / 2) ≤ 685
    rw [centre_x, centre_y]
    omega

theorem nextstate_inv (s : State) (h : Inv s) : Inv (nextstate s) :=
  ⟨nextstate_core s h.core, nextstate_pos s h.core.cfg.winsz (fun hg => h.pos (by simp [hg]))⟩

theorem initial_inv : Inv initial := by
  refine ⟨⟨⟨?_, ?_, ?_, ?_, ?_, ?_, ?_, ?_⟩, ?_, ?_, ?_, ?_⟩, fun _ => ⟨?_, ?_, ?_, ?_⟩⟩ <;> decide

theorem cfg_width_bound (s : State) (c : s.winsz = ⟨1280, 720⟩) :
    toInt s.winsz.width - PLAYER_SIZE = 1245 := by
  rw [c]; exact width_bound

theorem cfg_height_bound (s : State) (c : s.winsz = ⟨1280, 720⟩) :
    toInt s.winsz.height - PLAYER_SIZE = 685 := by
  rw [c]; exact height_bound

theorem bounceplayer_eq (s : State) (c1 : s.winsz = ⟨1280, 720⟩) :
    bounceplayer s =
      if 0 ≤ s.player.y + stepy s ∧ s.player.y + stepy s ≤ 685 then
        { s with player := { s.player with y := s.player.y + stepy s } }
      else
        { s with player := { s.player with
            y := s.player.y - stepy s,
            direction := (s.player.direction ^^^ 2) % 256 } } := by
  have hy : stepy s = (((s.player.direction &&& 2 : Nat) : Int) - 1) * MOVE_FACTOR := rfl
  unfold bounceplayer
  simp only [cfg_height_bound s c1, ← hy]
  by_cases h : 0 ≤ s.player.y + stepy s ∧ s.player.y + stepy s ≤ 685
  · have hb : BETWEEN (s.player.y + stepy s) 0 685 = true := (BETWEEN_iff _ _ _).2 h
    simp only [hb, if_pos h]
    rfl
  · have hb : (!BETWEEN (s.player.y + stepy s) 0 685) = true := (not_BETWEEN_iff _ _ _).2 h
    simp only [hb, if_neg h]
    rfl

theorem bounceplayer_inv (s : State) (h : Inv s) (hg : s.gamestate = Gamestate.GSTitle) :
    Inv (bounceplayer s) := by
  obtain ⟨⟨⟨c1, c2, c3, c4, c5, c6, c7, c8⟩, ha, hl, hr, hb⟩, hp⟩ := h
  obtain ⟨hx1, hx2, hy1, hy2⟩ := hp (by simp [hg])
  rw [bounceplayer_eq s c1]
  split
  · rename_i hin
    exact ⟨⟨⟨c1, c2, c3, c4, c5, c6, c7, c8⟩, ha, hl, hr, hb⟩, fun _ => ⟨hx1, hx2, hin.1, hin.2⟩⟩
  · rename_i hout
    refine ⟨⟨⟨c1, c2, c3, c4, c5, c6, c7, c8⟩, ?_, hl, hr, hb⟩, fun _ => ⟨hx1, hx2, ?_, ?_⟩⟩
    · show s.activebar = ((s.player.direction ^^^ 2) % 256) &&& 1
      rw [xor_two_and_one]; exact ha
    · show 0 ≤ s.player.y - stepy s
      rcases stepy_cases s with ⟨_, hs⟩ | ⟨_, hs⟩ <;> rw [hs] at hout ⊢ <;> omega
    · show s.player.y - stepy s ≤ 685
      rcases stepy_cases s with ⟨_, hs⟩ | ⟨_, hs⟩ <;> rw [hs] at hout ⊢ <;> omega

theorem cfg_barlo (s : State) (c1 : s.winsz = ⟨1280, 720⟩) (c2 : s.barsz = ⟨35, 360⟩) :
    barlo s = -180 := by
  unfold barlo; rw [c1, c2]; exact barlo_val

theorem cfg_barhi (s : State) (c1 : s.winsz = ⟨1280, 720⟩) (c2 : s.barsz = ⟨35, 360⟩) :
    barhi s = 180 := by
  unfold barhi; rw [c1, c2]; exact barhi_val

theorem movebar_eq (s : State) (c1 : s.winsz = ⟨1280, 720⟩) (c2 : s.barsz = ⟨35, 360⟩) :
    movebar s = { s with
      bars := setbar s.bars s.activebar { (getbar s.bars s.activebar) with y := newbary s } } := by
  unfold movebar newbary
  simp only [cfg_barlo s c1 c2, cfg_barhi s c1 c2, MOVE_FACTOR]
  by_cases h : -180 ≤ (getbar s.bars s.activebar).y + s.barmove * 10
      ∧ (getbar s.bars s.activebar).y + s.barmove * 10 ≤ 180
  · have hb : BETWEEN ((getbar s.bars s.activebar).y + s.barmove * 10) (-180) 180 = true :=
      (BETWEEN_iff _ _ _).2 h
    simp only [hb, if_pos h]
    rfl
  · have hb : (!BETWEEN ((getbar s.bars s.activebar).y + s.barmove * 10) (-180) 180) = true :=
      (not_BETWEEN_iff _ _ _).2 h
    simp only [hb, if_neg h]
    rfl

theorem newbary_range (s : State) (h1 : -180 ≤ (getbar s.bars s.activebar).y)
    (h2 : (getbar s.bars s.activebar).y ≤ 180) : -180 ≤ newbary s ∧ newbary s ≤ 180 := by
  unfold newbary
  split <;> omega

theorem moveplayer_eq (s : State) (c1 : s.winsz = ⟨1280, 720⟩) (c2 : s.barsz = ⟨35, 360⟩) :
    moveplayer s = { s with
      bars := setbar s.bars s.activebar { (getbar s.bars s.activebar) with y := newbary s },
      player := { s.player with x := s.player.x + stepx s, y := s.player.y + stepy s } } := by
  unfold moveplayer
  rw [movebar_eq s c1 c2]

theorem wallbounce_eq (s : State) (c1 : s.winsz = ⟨1280, 720⟩) :
    wallbounce s =
      if 0 ≤ s.player.y + stepy s ∧ s.player.y + stepy s ≤ 685 then moveplayer s
      else { moveplayer s with player := { (moveplayer s).player with
              direction := (s.player.direction ^^^ 2) % 256,
              y := s.player.y - stepy s } } := by
  have hw : (moveplayer s).winsz = s.winsz := rfl
  have hy : (moveplayer s).player.y = s.player.y + stepy s := rfl
  have hd : (moveplayer s).player.direction = s.player.direction := rfl
  unfold wallbounce
  simp only [hw, cfg_height_bound s c1, hy, hd]
  by_cases h : 0 ≤ s.player.y + stepy s ∧ s.player.y + stepy s ≤ 685
  · have hb : BETWEEN (s.player.y + stepy s) 0 685 = true := (BETWEEN_iff _ _ _).2 h
    simp only [hb, if_pos h]
    rfl
  · have hb : (!BETWEEN (s.player.y + stepy s) 0 685) = true := (not_BETWEEN_iff _ _ _).2 h
    simp only [hb, if_neg h]
    rfl

theorem play_eq (s : State) (c1 : s.winsz = ⟨1280, 720⟩) :
    play s =
      if 0 ≤ s.player.x + stepx s ∧ s.player.x + stepx s ≤ 1245 then
        if touchingbar (wallbounce s) = true then
          { wallbounce s with
            player := { (wallbounce s).player with
              score := ((wallbounce s).player.score + 1) % UINT_RANGE,
              direction := ((wallbounce s).player.direction ^^^ 1) % 256,
              x := s.player.x - stepx s },
            activebar := (((wallbounce s).player.direction ^^^ 1) % 256) &&& 1,
            barmove := 0 }
        else wallbounce s
      else nextstate (moveplayer s) := by
  have hw : (moveplayer s).winsz = s.winsz := rfl
  have hx : (moveplayer s).player.x = s.player.x + stepx s := rfl
  unfold play
  simp only [hw, cfg_width_bound s c1, hx]
  by_cases h : 0 ≤ s.player.x + stepx s ∧ s.player.x + stepx s ≤ 1245
  · have hb : BETWEEN (s.player.x + stepx s) 0 1245 = true := (BETWEEN_iff _ _ _).2 h
    simp only [hb, if_pos h]
    rfl
  · have hb : (!BETWEEN (s.player.x + stepx s) 0 1245) = true := (not_BETWEEN_iff _ _ _).2 h
    simp only [hb, if_neg h]
    rfl

theorem touchingbar_iff (s : State) (hw : s.winsz.height = 720) (hb : s.barsz.height = 360)
    (h1 : -180 ≤ (getbar s.bars s.activebar).y) (h2 : (getbar s.bars s.activebar).y ≤ 180) :
    touchingbar s = true ↔
      (s.player.x ≤ (getbar s.bars s.activebar).edge_x
        ∧ (getbar s.bars s.activebar).edge_x ≤ s.player.x + 35)
      ∧ (360 - 180 - (getbar s.bars s.activebar).y ≤ s.player.y
        ∧ s.player.y ≤ 360 + 180 - (getbar s.bars s.activebar).y) := by
  unfold touchingbar
  simp only [hw, hb, barymin_eval _ h1 h2, barymax_eval _ h1 h2, Bool.and_eq_true, BETWEEN_iff,
    PLAYER_SIZE]
  constructor <;> intro h <;> refine ⟨h.1, ?_⟩ <;> omega

theorem newbary_core (s : State) (h : Core s) : -180 ≤ newbary s ∧ newbary s ≤ 180 := by
  apply newbary_range
  · unfold getbar; split
    · exact h.ly.1
    · exact h.ry.1
  · unfold getbar; split
    · exact h.ly.2
    · exact h.ry.2

theorem moveplayer_core (s : State) (h : Core s) : Core (moveplayer s) := by
  have hn := newbary_core s h
  obtain ⟨⟨c1, c2, c3, c4, c5, c6, c7, c8⟩, ha, hl, hr, hb⟩ := h
  rw [moveplayer_eq s c1 c2]
  by_cases h0 : s.activebar = 0
  · have e1 : setbar s.bars s.activebar { (getbar s.bars s.activebar) with y := newbary s }
        = ({ s.bars.1 with y := newbary s }, s.bars.2) := by
      unfold setbar getbar; rw [if_pos h0, if_pos h0]
    rw [e1]
    exact ⟨⟨c1, c2, c3, c4, c5, c6, c7, c8⟩, ha, hn, hr, hb⟩
  · have e1 : setbar s.bars s.activebar { (getbar s.bars s.activebar) with y := newbary s }
        = (s.bars.1, { s.bars.2 with y := newbary s }) := by
      unfold setbar getbar; rw [if_neg h0, if_neg h0]
    rw [e1]
    exact ⟨⟨c1, c2, c3, c4, c5, c6, c7, c8⟩, ha, hl, hn, hb⟩

theorem wallbounce_core (s : State) (h : Core s) : Core (wallbounce s) := by
  have hm := moveplayer_core s h
  have hd : (moveplayer s).player.direction = s.player.direction := rfl
  rw [wallbounce_eq s h.cfg.winsz]
  split
  · exact hm
  · obtain ⟨⟨c1, c2, c3, c4, c5, c6, c7, c8⟩, ha, hl, hr, hb⟩ := hm
    refine ⟨⟨c1, c2, c3, c4, c5, c6, c7, c8⟩, ?_, hl, hr, hb⟩
    show (moveplayer s).activebar = ((s.player.direction ^^^ 2) % 256) &&& 1
    rw [xor_two_and_one, ← hd]; exact ha

theorem wallbounce_x (s : State) (c1 : s.winsz = ⟨1280, 720⟩) :
    (wallbounce s).player.x = s.player.x + stepx s := by
  rw [wallbounce_eq s c1]; split <;> rfl

theorem wallbounce_y (s : State) (c1 : s.winsz = ⟨1280, 720⟩)
    (h1 : 0 ≤ s.player.y) (h2 : s.player.y ≤ 685) :
    0 ≤ (wallbounce s).player.y ∧ (wallbounce s).player.y ≤ 685 := by
  rw [wallbounce_eq s c1]
  split
  · rename_i hin; exact hin
  · rename_i hout
    show 0 ≤ s.player.y - stepy s ∧ s.player.y - stepy s ≤ 685
    rcases stepy_cases s with ⟨_, hs⟩ | ⟨_, hs⟩ <;> rw [hs] at hout ⊢ <;> omega

theorem wallbounce_frame (s : State) (c1 : s.winsz = ⟨1280, 720⟩) :
    (wallbounce s).gamestate = s.gamestate ∧ (wallbounce s).player.score = s.player.score
    ∧ (wallbounce s).barmove = s.barmove ∧ (wallbounce s).activebar = s.activebar
    ∧ (wallbounce s).player.deadtime = s.player.deadtime ∧ (wallbounce s).wipe = s.wipe
    ∧ (wallbounce s).quit = s.quit ∧ (wallbounce s).winsz = s.winsz
    ∧ (wallbounce s).barsz = s.barsz ∧ (wallbounce s).bars = (moveplayer s).bars
    ∧ (wallbounce s).player.direction &&& 1 = s.player.direction &&& 1 := by
  rw [wallbounce_eq s c1]
  split
  · exact ⟨rfl, rfl, rfl, rfl, rfl, rfl, rfl, rfl, rfl, rfl, rfl⟩
  · exact ⟨rfl, rfl, rfl, rfl, rfl, rfl, rfl, rfl, rfl, rfl, xor_two_and_one _⟩

theorem play_inv (s : State) (h : Inv s) (hg : s.gamestate = Gamestate.GSPlaying) :
    Inv (play s) := by
  have hc := h.core
  have c1 := hc.cfg.winsz
  obtain ⟨hx1, hx2, hy1, hy2⟩ := h.pos (by simp [hg])
  have hw := wallbounce_core s hc
  have hwx := wallbounce_x s c1
  have hwy := wallbounce_y s c1 hy1 hy2
  have hf := wallbounce_frame s c1
  rw [play_eq s c1]
  split
  · rename_i hin
    split
    · rename_i ht
      have hby : -180 ≤ (getbar (wallbounce s).bars (wallbounce s).activebar).y
          ∧ (getbar (wallbounce s).bars (wallbounce s).activebar).y ≤ 180 := by
        unfold getbar; split
        · exact hw.ly
        · exact hw.ry
      rw [touchingbar_iff (wallbounce s) (by rw [hf.2.2.2.2.2.2.2.1, c1])
        (by rw [hf.2.2.2.2.2.2.2.2.1, hc.cfg.barsz]) hby.1 hby.2] at ht
      obtain ⟨⟨t1, t2⟩, _⟩ := ht
      rw [hwx] at t1 t2
      rw [hw.active] at t1 t2
      rw [hf.2.2.2.2.2.2.2.2.2.2] at t1 t2
      obtain ⟨⟨c1, c2, c3, c4, c5, c6, c7, c8⟩, ha, hl, hr, hb⟩ := hw
      refine ⟨⟨⟨c1, c2, c3, c4, c5, c6, c7, c8⟩, rfl, hl, hr, Or.inr (Or.inl rfl)⟩,
        fun _ => ⟨?_, ?_, hwy.1, hwy.2⟩⟩
      · show 0 ≤ s.player.x - stepx s
        rcases stepx_cases s with ⟨hd, hs⟩ | ⟨hd, hs⟩
        · rw [hs]; omega
        · rw [hd] at t1 t2
          rw [hs] at t1 t2 ⊢
          have e : (getbar (wallbounce s).bars 1).edge_x = 1195 := c8
          omega
      · show s.player.x - stepx s ≤ 1245
        rcases stepx_cases s with ⟨hd, hs⟩ | ⟨hd, hs⟩
        · rw [hd] at t1 t2
          rw [hs] at t1 t2 ⊢
          have e : (getbar (wallbounce s).bars 0).edge_x = 85 := c6
          omega
        · rw [hs]; omega
    · refine ⟨hw, fun _ => ⟨?_, ?_, hwy.1, hwy.2⟩⟩
      · rw [hwx]; exact hin.1
      · rw [hwx]; exact hin.2
  · have hm := moveplayer_core s hc
    refine ⟨nextstate_core _ hm, ?_⟩
    have hgm : (moveplayer s).gamestate = Gamestate.GSPlaying := hg
    rw [nextstate_of_playing _ hgm]
    exact fun hne => absurd rfl hne

/-! ## The loops of `dowipe` -/

theorem randomize_append (rnd : Nat → Nat) (suf pre : List Int) :
    randomize rnd suf.length pre.length (pre ++ suf)
      = pre ++ (List.range' pre.length suf.length).map (fun i => -((rnd i % 10 : Nat) : Int)) := by
  induction suf generalizing pre with
  | nil => simp [randomize]
  | cons o t ih =>
    have hs : (pre ++ o :: t).set pre.length (-((rnd pre.length % 10 : Nat) : Int))
        = (pre ++ [-((rnd pre.length % 10 : Nat) : Int)]) ++ t := by
      rw [List.set_append_right _ _ (Nat.le_refl _)]
      simp
    have hl : (pre ++ [-((rnd pre.length % 10 : Nat) : Int)]).length = pre.length + 1 := by simp
    show randomize rnd t.length (pre.length + 1)
        ((pre ++ o :: t).set pre.length (-((rnd pre.length % 10 : Nat) : Int))) = _
    rw [hs, ← hl, ih, hl]
    simp [List.range'_succ]

theorem randomize_eq (rnd : Nat → Nat) (offs : List Int) :
    randomize rnd offs.length 0 offs = stagger rnd offs.length := by
  have h := randomize_append rnd offs []
  simp only [List.length_nil, List.nil_append] at h
  rw [h, stagger, List.range_eq_range']

theorem wipeloop_append (height bs : Int) (suf pre : List Int) (done : Bool) :
    wipeloop height bs suf.length pre.length (pre ++ suf) done
      = (pre ++ suf.map (colstep height bs),
         done && suf.all (fun o => decide (height ≤ o) && decide (0 ≤ o))) := by
  induction suf generalizing pre done with
  | nil => simp [wipeloop]
  | cons o t ih =>
    have hg : (pre ++ o :: t).getD pre.length 0 = o := by
      rw [List.getD_append_right _ _ _ _ (Nat.le_refl _)]
      simp
    have hs : ∀ v : Int, (pre ++ o :: t).set pre.length v = (pre ++ [v]) ++ t := by
      intro v
      rw [List.set_append_right _ _ (Nat.le_refl _)]
      simp
    have hl : ∀ v : Int, (pre ++ [v]).length = pre.length + 1 := by simp
    show wipeloop height bs (t.length + 1) pre.length (pre ++ o :: t) done = _
    unfold wipeloop
    rw [hg]
    by_cases h1 : o < 0
    · rw [if_pos h1, hs, ← hl (o + 1), ih]
      have hc : colstep height bs o = o + 1 := by unfold colstep; rw [if_pos h1]
      have hd : decide (0 ≤ o) = false := by simp; omega
      simp [hc, hd]
    · rw [if_neg h1]
      by_cases h2 : o < height
      · rw [if_pos h2, hs, ← hl (o + bs), ih]
        have hc : colstep height bs o = o + bs := by unfold colstep; rw [if_neg h1, if_pos h2]
        have hd : decide (height ≤ o) = false := by simp; omega
        simp [hc, hd]
      · rw [if_neg h2]
        have hc : colstep height bs o = o := by unfold colstep; rw [if_neg h1, if_neg h2]
        have hs2 : pre ++ o :: t = (pre ++ [o]) ++ t := by simp
        rw [hs2, ← hl o, ih]
        have hd : decide (height ≤ o) = true := by simp; omega
        have hd2 : decide (0 ≤ o) = true := by simp; omega
        simp [hc, hd, hd2]

theorem wipeloop_eq (height bs : Int) (offs : List Int) :
    wipeloop height bs offs.length 0 offs true
      = (offs.map (colstep height bs),
         offs.all (fun o => decide (height ≤ o) && decide (0 ≤ o))) := by
  have h := wipeloop_append height bs offs [] true
  simpa using h

theorem cfg_blocks (s : State) (c1 : s.winsz = ⟨1280, 720⟩) (c3 : s.wipe.bs = 16)
    (c4 : s.wipe.offs.length = 80) : (blocks s).toNat = s.wipe.offs.length := by
  unfold blocks
  rw [c1, c3, c4]
  show (toInt (usub (uadd 1280 (toUnsigned 16)) 1 / toUnsigned 16)).toNat = 80
  rw [blocks_val]
  rfl

theorem dowipe_zero (rnd : Nat → Nat) (s : State) (c1 : s.winsz = ⟨1280, 720⟩)
    (c3 : s.wipe.bs = 16) (c4 : s.wipe.offs.length = 80) (hd : s.player.deadtime = 0) :
    dowipe rnd s = { s with
      wipe := { s.wipe with offs := stagger rnd 80 },
      player := { s.player with deadtime := 1 } } := by
  unfold dowipe
  simp only [cfg_blocks s c1 c3 c4, hd, if_true, randomize_eq]
  rw [c4]
  rfl

theorem dowipe_wait (rnd : Nat → Nat) (s : State) (hd : s.player.deadtime ≠ 0)
    (hw : s.player.deadtime + 1 < 10) :
    dowipe rnd s = { s with player := { s.player with deadtime := s.player.deadtime + 1 } } := by
  unfold dowipe
  simp only [if_neg hd, if_pos hw]

theorem dowipe_run (rnd : Nat → Nat) (s : State) (c1 : s.winsz = ⟨1280, 720⟩)
    (c3 : s.wipe.bs = 16) (c4 : s.wipe.offs.length = 80) (hw : 9 ≤ s.player.deadtime) :
    dowipe rnd s =
      if s.wipe.offs.all (fun o => decide (720 ≤ o) && decide (0 ≤ o)) = true then
        nextstate { s with
          wipe := { s.wipe with offs := s.wipe.offs.map (colstep 720 16) },
          player := { s.player with deadtime := s.player.deadtime + 1 } }
      else
        { s with
          wipe := { s.wipe with offs := s.wipe.offs.map (colstep 720 16) },
          player := { s.player with deadtime := s.player.deadtime + 1 } } := by
  have hd : s.player.deadtime ≠ 0 := by omega
  have hw2 : ¬ (s.player.deadtime + 1 < 10) := by omega
  have hh : toInt s.winsz.height = 720 := by rw [c1]; decide
  unfold dowipe
  simp only [cfg_blocks s c1 c3 c4, if_neg hd, if_neg hw2, hh, c3, wipeloop_eq]

theorem stagger_length (rnd : Nat → Nat) (n : Nat) : (stagger rnd n).length = n := by
  simp [stagger]

theorem dowipe_inv (rnd : Nat → Nat) (s : State) (h : Inv s)
    (hg : s.gamestate = Gamestate.GSDead) : Inv (dowipe rnd s) := by
  obtain ⟨⟨⟨c1, c2, c3, c4, c5, c6, c7, c8⟩, ha, hl, hr, hb⟩, -⟩ := h
  by_cases hd : s.player.deadtime = 0
  · rw [dowipe_zero rnd s c1 c3 c4 hd]
    exact ⟨⟨⟨c1, c2, c3, stagger_length rnd 80, c5, c6, c7, c8⟩, ha, hl, hr, hb⟩,
      fun hne => absurd hg hne⟩
  · by_cases hw : s.player.deadtime + 1 < 10
    · rw [dowipe_wait rnd s hd hw]
      exact ⟨⟨⟨c1, c2, c3, c4, c5, c6, c7, c8⟩, ha, hl, hr, hb⟩, fun hne => absurd hg hne⟩
    · rw [dowipe_run rnd s c1 c3 c4 (by omega)]
      have hcore : Core { s with
          wipe := { s.wipe with offs := s.wipe.offs.map (colstep 720 16) },
          player := { s.player with deadtime := s.player.deadtime + 1 } } :=
        ⟨⟨c1, c2, c3, by simp [c4], c5, c6, c7, c8⟩, ha, hl, hr, hb⟩
      split
      · refine ⟨nextstate_core _ hcore, nextstate_pos _ c1 (fun hgt => ?_)⟩
        have : s.gamestate = Gamestate.GSTitle := hgt
        rw [hg] at this
        exact absurd this (by decide)
      · exact ⟨hcore, fun hne => absurd hg hne⟩

theorem tick_inv (rnd : Nat → Nat) (s : State) (h : Inv s) : Inv (tick rnd s) := by
  unfold tick
  cases hg : s.gamestate
  · exact bounceplayer_inv s h hg
  · exact play_inv s h hg
  · exact dowipe_inv rnd s h hg

theorem inv_congr (s t : State) (h : Inv s) (hw : t.winsz = s.winsz) (hb : t.barsz = s.barsz)
    (hwp : t.wipe = s.wipe) (hbars : t.bars = s.bars) (ha : t.activebar = s.activebar)
    (hp : t.player = s.player) (hg : t.gamestate = s.gamestate)
    (hbm : t.barmove = -1 ∨ t.barmove = 0 ∨ t.barmove = 1) : Inv t := by
  obtain ⟨⟨⟨c1, c2, c3, c4, c5, c6, c7, c8⟩, ha1, hl, hr, -⟩, hpos⟩ := h
  refine ⟨⟨⟨?_, ?_, ?_, ?_, ?_, ?_, ?_, ?_⟩, ?_, ?_, ?_, hbm⟩, ?_⟩
  · rw [hw]; exact c1
  · rw [hb]; exact c2
  · rw [hwp]; exact c3
  · rw [hwp]; exact c4
  · rw [hbars]; exact c5
  · rw [hbars]; exact c6
  · rw [hbars]; exact c7
  · rw [hbars]; exact c8
  · rw [ha, hp]; exact ha1
  · rw [hbars]; exact hl
  · rw [hbars]; exact hr
  · rw [hg]; unfold InArena; rw [hp]; exact hpos

theorem keypress_inv (ks : Int) (s : State) (h : Inv s) : Inv (keypress ks s) := by
  have hn := nextstate_inv s h
  unfold keypress
  dsimp only
  split_ifs
  all_goals first
    | exact h
    | exact hn
    | exact inv_congr s _ h rfl rfl rfl rfl rfl rfl rfl h.core.bm
    | exact inv_congr s _ h rfl rfl rfl rfl rfl rfl rfl (Or.inl rfl)
    | exact inv_congr s _ h rfl rfl rfl rfl rfl rfl rfl (Or.inr (Or.inr rfl))
    | exact inv_congr (nextstate s) _ hn rfl rfl rfl rfl rfl rfl rfl hn.core.bm
    | exact inv_congr (nextstate s) _ hn rfl rfl rfl rfl rfl rfl rfl (Or.inl rfl)
    | exact inv_congr (nextstate s) _ hn rfl rfl rfl rfl rfl rfl rfl (Or.inr (Or.inr rfl))

theorem keyrelease_inv (ks : Int) (s : State) (h : Inv s) : Inv (keyrelease ks s) := by
  unfold keyrelease
  split
  · split
    · exact inv_congr s _ h rfl rfl rfl rfl rfl rfl rfl (Or.inr (Or.inl rfl))
    · exact h
  · exact h

theorem message_inv (del : Bool) (s : State) (h : Inv s) : Inv (message del s) := by
  unfold message
  split
  · exact inv_congr s _ h rfl rfl rfl rfl rfl rfl rfl h.core.bm
  · exact h

theorem handle_inv (e : Event) (s : State) (h : Inv s) : Inv (handle e s) := by
  cases e with
  | keypress ks => exact keypress_inv ks s h
  | keyrelease ks => exact keyrelease_inv ks s h
  | message del => exact message_inv del s h
  | other => exact h

theorem reachable_inv (s : State) (h : Reachable s) : Inv s := by
  induction h with
  | init => exact initial_inv
  | event e s _ ih => exact handle_inv e s ih
  | tick rnd s _ ih => exact tick_inv rnd s ih

/-! ## Claims C1 and C2: position and active bar in the reachable states -/

/-- C1: in every state reachable from the initial state by key events and ticks, whenever
the game state is Playing or Title (in particular at the end of a tick), the player's
position satisfies `0 ≤ x ≤ 1245` and `0 ≤ y ≤ 685`. -/
theorem C1_player_stays_in_arena (s : State) (h : Reachable s)
    (hg : s.gamestate = Gamestate.GSPlaying ∨ s.gamestate = Gamestate.GSTitle) :
    0 ≤ s.player.x ∧ s.player.x ≤ 1245 ∧ 0 ≤ s.player.y ∧ s.player.y ≤ 685 := by
  have hi := reachable_inv s h
  apply hi.pos
  rcases hg with hg | hg <;> rw [hg] <;> decide

/-- Witness for C1: the state after pressing Return and one tick. -/
theorem C1_player_stays_in_arena_witness :
    Reachable (tick (fun _ => 0) (handle (Event.keypress XK_Return) initial))
    ∧ (tick (fun _ => 0) (handle (Event.keypress XK_Return) initial)).gamestate
        = Gamestate.GSPlaying
    ∧ 0 ≤ (tick (fun _ => 0) (handle (Event.keypress XK_Return) initial)).player.x
    ∧ (tick (fun _ => 0) (handle (Event.keypress XK_Return) initial)).player.x ≤ 1245
    ∧ 0 ≤ (tick (fun _ => 0) (handle (Event.keypress XK_Return) initial)).player.y
    ∧ (tick (fun _ => 0) (handle (Event.keypress XK_Return) initial)).player.y ≤ 685 :=
  ⟨Reachable.tick _ _ (Reachable.event _ _ Reachable.init), by decide,
    C1_player_stays_in_arena _ (Reachable.tick _ _ (Reachable.event _ _ Reachable.init))
      (Or.inl (by decide))⟩

/-- C2: in every reachable state (after `init`, after every key handler and after every
tick) the active bar is `bars[player.direction & 1]`: the left bar exactly when the
horizontal direction bit is 0 (Left) and the right bar exactly when it is 1 (Right). -/
theorem C2_active_bar_matches_direction (s : State) (h : Reachable s) :
    s.activebar = s.player.direction &&& 1
    ∧ (s.activebar = 0 ∨ s.activebar = 1)
    ∧ (s.activebar = 0 ↔ s.player.direction &&& 1 = 0)
    ∧ (s.activebar = 1 ↔ s.player.direction &&& 1 = 1)
    ∧ (s.player.direction &&& 1 = 0 → getbar s.bars s.activebar = s.bars.1)
    ∧ (s.player.direction &&& 1 = 1 → getbar s.bars s.activebar = s.bars.2) := by
  have ha := (reachable_inv s h).core.active
  rw [ha]
  refine ⟨rfl, and_one_cases _, Iff.rfl, Iff.rfl, ?_, ?_⟩
  · intro h2; rw [h2]; rfl
  · intro h2; rw [h2]; rfl

/-- Witness for C2: the state after pressing Return and one tick. -/
theorem C2_active_bar_matches_direction_witness :
    Reachable (tick (fun _ => 0) (handle (Event.keypress XK_Return) initial))
    ∧ (tick (fun _ => 0) (handle (Event.keypress XK_Return) initial)).activebar
      = (tick (fun _ => 0) (handle (Event.keypress XK_Return) initial)).player.direction &&& 1 :=
  ⟨Reachable.tick _ _ (Reachable.event _ _ Reachable.init),
    (C2_active_bar_matches_direction _
      (Reachable.tick _ _ (Reachable.event _ _ Reachable.init))).1⟩

/-! ## The course of a wipe: lemmas -/

theorem colAfter_stagger (s j : Nat) :
    colAfter j (-(s : Int)) =
      if j ≤ s then (j : Int) - s else if j ≤ s + 45 then 16 * ((j : Int) - s) else 720 := by
  induction j with
  | zero => simp [colAfter]
  | succ j ih =>
    show colstep 720 16 (colAfter j (-(s : Int))) = _
    rw [ih]
    unfold colstep
    split_ifs <;> omega

theorem colDone_colAfter (s j : Nat) :
    colDone (colAfter j (-(s : Int))) = true ↔ s + 45 ≤ j := by
  rw [colAfter_stagger s j]
  unfold colDone
  simp only [Bool.and_eq_true, decide_eq_true_eq]
  split_ifs <;> omega

theorem colAfter_done (s j : Nat) (hj : s + 45 ≤ j) :
    colAfter j (-(s : Int)) = 720 := by
  rw [colAfter_stagger s j]
  split_ifs <;> omega

theorem map_colAfter_succ (j : Nat) (offs : List Int) :
    (offs.map (colAfter j)).map (colstep 720 16) = offs.map (colAfter (j + 1)) := by
  rw [List.map_map]
  rfl

theorem maxStagger_le (rnd : Nat → Nat) (n : Nat) : maxStagger rnd n ≤ 9 := by
  induction n with
  | zero => simp [maxStagger]
  | succ n ih =>
    unfold maxStagger
    have : rnd n % 10 ≤ 9 := by omega
    omega

theorem le_maxStagger (rnd : Nat → Nat) (n i : Nat) (hi : i < n) :
    rnd i % 10 ≤ maxStagger rnd n := by
  induction n with
  | zero => omega
  | succ n ih =>
    unfold maxStagger
    rcases Nat.lt_succ_iff_lt_or_eq.1 hi with h | h
    · have := ih h; omega
    · subst h; omega

theorem maxStagger_attained (rnd : Nat → Nat) (n : Nat) (hn : 0 < n) :
    ∃ i, i < n ∧ rnd i % 10 = maxStagger rnd n := by
  induction n with
  | zero => omega
  | succ n ih =>
    unfold maxStagger
    by_cases h : maxStagger rnd n ≤ rnd n % 10
    · exact ⟨n, Nat.lt_succ_self n, by omega⟩
    · have hn0 : 0 < n := by
        rcases Nat.eq_zero_or_pos n with h0 | h0
        · subst h0; simp [maxStagger] at h
        · exact h0
      obtain ⟨i, hi, he⟩ := ih hn0
      exact ⟨i, Nat.lt_succ_of_lt hi, by omega⟩

theorem all_done_stagger (rnd : Nat → Nat) (n j : Nat) (hn : 0 < n) :
    ((stagger rnd n).map (colAfter j)).all (fun o => decide (720 ≤ o) && decide (0 ≤ o)) = true
      ↔ maxStagger rnd n + 45 ≤ j := by
  have hcd : (fun o : Int => decide (720 ≤ o) && decide (0 ≤ o)) = colDone := rfl
  rw [hcd, List.all_eq_true]
  constructor
  · intro h
    obtain ⟨i, hi, he⟩ := maxStagger_attained rnd n hn
    have hm : colAfter j (-((rnd i % 10 : Nat) : Int)) ∈ (stagger rnd n).map (colAfter j) := by
      apply List.mem_map_of_mem
      unfold stagger
      exact List.mem_map.2 ⟨i, List.mem_range.2 hi, rfl⟩
    have := (colDone_colAfter (rnd i % 10) j).1 (h _ hm)
    omega
  · intro h x hx
    obtain ⟨o, ho, rfl⟩ := List.mem_map.1 hx
    unfold stagger at ho
    obtain ⟨i, hi, rfl⟩ := List.mem_map.1 ho
    have hle := le_maxStagger rnd n i (List.mem_range.1 hi)
    exact (colDone_colAfter (rnd i % 10) j).2 (by omega)

theorem stagger_settled (rnd : Nat → Nat) (n j : Nat) (hj : maxStagger rnd n + 45 ≤ j) :
    (stagger rnd n).map (colAfter j) = List.replicate n 720 := by
  apply List.ext_getElem
  · simp [stagger]
  · intro i h1 h2
    simp only [stagger, List.getElem_map, List.getElem_range, List.getElem_replicate]
    have hi : i < n := by simpa [stagger] using h1
    have hle := le_maxStagger rnd n i hi
    exact colAfter_done (rnd i % 10) j (by omega)

theorem tick_dead (rnd : Nat → Nat) (s : State) (hg : s.gamestate = Gamestate.GSDead) :
    tick rnd s = dowipe rnd s := by
  unfold tick; rw [hg]

theorem tick_wipe_zero (rnd : Nat → Nat) (s : State) (offs : List Int)
    (hg : s.gamestate = Gamestate.GSDead) (c1 : s.winsz = ⟨1280, 720⟩) (c3 : s.wipe.bs = 16)
    (hl : offs.length = 80) :
    tick rnd (wipeState s 0 offs) = wipeState s 1 (stagger rnd 80) := by
  rw [tick_dead rnd (wipeState s 0 offs) hg, dowipe_zero rnd (wipeState s 0 offs) c1 c3 hl rfl]
  rfl

theorem tick_wipe_wait (rnd : Nat → Nat) (s : State) (d : Int) (offs : List Int)
    (hg : s.gamestate = Gamestate.GSDead) (hd : d ≠ 0) (hw : d + 1 < 10) :
    tick rnd (wipeState s d offs) = wipeState s (d + 1) offs := by
  rw [tick_dead rnd (wipeState s d offs) hg, dowipe_wait rnd (wipeState s d offs) hd hw]
  rfl

theorem tick_wipe_step (rnd : Nat → Nat) (s : State) (d : Int) (offs : List Int)
    (hg : s.gamestate = Gamestate.GSDead) (c1 : s.winsz = ⟨1280, 720⟩) (c3 : s.wipe.bs = 16)
    (hl : offs.length = 80) (hd : 9 ≤ d)
    (hn : ¬ offs.all (fun o => decide (720 ≤ o) && decide (0 ≤ o)) = true) :
    tick rnd (wipeState s d offs) = wipeState s (d + 1) (offs.map (colstep 720 16)) := by
  rw [tick_dead rnd (wipeState s d offs) hg, dowipe_run rnd (wipeState s d offs) c1 c3 hl hd]
  have e : (wipeState s d offs).wipe.offs = offs := rfl
  rw [e, if_neg hn]
  rfl

theorem tick_wipe_last (rnd : Nat → Nat) (s : State) (d : Int) (offs : List Int)
    (hg : s.gamestate = Gamestate.GSDead) (c1 : s.winsz = ⟨1280, 720⟩) (c3 : s.wipe.bs = 16)
    (hl : offs.length = 80) (hd : 9 ≤ d)
    (hn : offs.all (fun o => decide (720 ≤ o) && decide (0 ≤ o)) = true) :
    tick rnd (wipeState s d offs)
      = nextstate (wipeState s (d + 1) (offs.map (colstep 720 16))) := by
  rw [tick_dead rnd (wipeState s d offs) hg, dowipe_run rnd (wipeState s d offs) c1 c3 hl hd]
  have e : (wipeState s d offs).wipe.offs = offs := rfl
  rw [e, if_pos hn]
  rfl

theorem map_colAfter_zero (offs : List Int) : offs.map (colAfter 0) = offs := by
  have h : colAfter 0 = id := rfl
  rw [h, List.map_id]

/-- The first ten ticks after a death: the counter goes from -1 to 9 and the second tick
draws the stagger values. -/
theorem ticks_warmup (rnds : Nat → Nat → Nat) (s : State)
    (hg : s.gamestate = Gamestate.GSDead) (c1 : s.winsz = ⟨1280, 720⟩) (c3 : s.wipe.bs = 16)
    (c4 : s.wipe.offs.length = 80) (hd : s.player.deadtime = -1) (k : Nat) (hk : k ≤ 8) :
    ticks rnds (k + 2) s = wipeState s ((k : Int) + 1) (stagger (rnds 1) 80) := by
  induction k with
  | zero =>
    have h1 : ticks rnds 1 s = wipeState s 0 s.wipe.offs := by
      show tick (rnds 0) s = _
      have e : s = wipeState s (-1) s.wipe.offs := by rw [← hd]; rfl
      rw [e, tick_wipe_wait (rnds 0) s (-1) _ hg (by decide) (by decide)]
      rfl
    show tick (rnds 1) (ticks rnds 1 s) = _
    rw [h1, tick_wipe_zero (rnds 1) s _ hg c1 c3 c4]
    rfl
  | succ k ih =>
    show tick (rnds (k + 2)) (ticks rnds (k + 2) s) = _
    rw [ih (by omega), tick_wipe_wait _ s _ _ hg (by omega) (by omega)]
    push_cast
    rfl

/-- The ticks that advance columns: `j` of them after the warm-up leave the counter at
`9 + j` and every column advanced `j` times, as long as `j` does not exceed the number of
rounds the slowest column needs. -/
theorem ticks_advance (rnds : Nat → Nat → Nat) (s : State)
    (hg : s.gamestate = Gamestate.GSDead) (c1 : s.winsz = ⟨1280, 720⟩) (c3 : s.wipe.bs = 16)
    (c4 : s.wipe.offs.length = 80) (hd : s.player.deadtime = -1) (j : Nat)
    (hj : j ≤ maxStagger (rnds 1) 80 + 45) :
    ticks rnds (j + 10) s
      = wipeState s ((j : Int) + 9) ((stagger (rnds 1) 80).map (colAfter j)) := by
  induction j with
  | zero =>
    rw [map_colAfter_zero]
    exact ticks_warmup rnds s hg c1 c3 c4 hd 8 (Nat.le_refl 8)
  | succ j ih =>
    show tick (rnds (j + 10)) (ticks rnds (j + 10) s) = _
    have hnd : ¬ ((stagger (rnds 1) 80).map (colAfter j)).all
        (fun o => decide (720 ≤ o) && decide (0 ≤ o)) = true := by
      rw [all_done_stagger (rnds 1) 80 j (by decide)]
      omega
    rw [ih (by omega), tick_wipe_step _ s _ _ hg c1 c3 (by simp [stagger_length]) (by omega) hnd,
      map_colAfter_succ]
    push_cast
    rfl

/-- The tick that ends the wipe: it is tick number `56 + M`, with `M` the largest stagger
value, and it finds every offset at exactly 720. -/
theorem ticks_complete (rnds : Nat → Nat → Nat) (s : State)
    (hg : s.gamestate = Gamestate.GSDead) (c1 : s.winsz = ⟨1280, 720⟩) (c3 : s.wipe.bs = 16)
    (c4 : s.wipe.offs.length = 80) (hd : s.player.deadtime = -1) :
    ticks rnds (maxStagger (rnds 1) 80 + 55) s
        = wipeState s ((maxStagger (rnds 1) 80 : Int) + 54) (List.replicate 80 720)
      ∧ ticks rnds (maxStagger (rnds 1) 80 + 56) s
        = nextstate (wipeState s ((maxStagger (rnds 1) 80 : Int) + 55) (List.replicate 80 720)) := by
  have h := ticks_advance rnds s hg c1 c3 c4 hd (maxStagger (rnds 1) 80 + 45) (Nat.le_refl _)
  rw [stagger_settled (rnds 1) 80 _ (Nat.le_refl _)] at h
  have h55 : ticks rnds (maxStagger (rnds 1) 80 + 55) s
      = wipeState s ((maxStagger (rnds 1) 80 : Int) + 54) (List.replicate 80 720) := by
    have e : maxStagger (rnds 1) 80 + 55 = maxStagger (rnds 1) 80 + 45 + 10 := by omega
    rw [e, h]
    push_cast
    have e2 : (maxStagger (rnds 1) 80 : Int) + 45 + 9 = (maxStagger (rnds 1) 80 : Int) + 54 := by
      omega
    rw [e2]
  refine ⟨h55, ?_⟩
  show tick (rnds (maxStagger (rnds 1) 80 + 55)) (ticks rnds (maxStagger (rnds 1) 80 + 55) s) = _
  rw [h55, tick_wipe_last _ s _ _ hg c1 c3 (by simp) (by omega) (by decide)]
  have e3 : (List.replicate 80 (720 : Int)).map (colstep 720 16) = List.replicate 80 720 := by
    decide
  have e4 : (maxStagger (rnds 1) 80 : Int) + 54 + 1 = (maxStagger (rnds 1) 80 : Int) + 55 := by
    omega
  rw [e3, e4]

theorem ticks_dead_before (rnds : Nat → Nat → Nat) (s : State)
    (hg : s.gamestate = Gamestate.GSDead) (c1 : s.winsz = ⟨1280, 720⟩) (c3 : s.wipe.bs = 16)
    (c4 : s.wipe.offs.length = 80) (hd : s.player.deadtime = -1) (n : Nat)
    (hn : n < maxStagger (rnds 1) 80 + 56) :
    (ticks rnds n s).gamestate = Gamestate.GSDead := by
  by_cases h10 : 10 ≤ n
  · obtain ⟨j, rfl⟩ : ∃ j, n = j + 10 := ⟨n - 10, by omega⟩
    rw [ticks_advance rnds s hg c1 c3 c4 hd j (by omega)]
    exact hg
  · by_cases h2 : 2 ≤ n
    · obtain ⟨k, rfl⟩ : ∃ k, n = k + 2 := ⟨n - 2, by omega⟩
      rw [ticks_warmup rnds s hg c1 c3 c4 hd k (by omega)]
      exact hg
    · have h01 : n = 0 ∨ n = 1 := by omega
      rcases h01 with rfl | rfl
      · exact hg
      · show (tick (rnds 0) s).gamestate = _
        have e : s = wipeState s (-1) s.wipe.offs := by rw [← hd]; rfl
        rw [e, tick_wipe_wait (rnds 0) s (-1) _ hg (by decide) (by decide)]
        exact hg

theorem ticks_title_at (rnds : Nat → Nat → Nat) (s : State)
    (hg : s.gamestate = Gamestate.GSDead) (c1 : s.winsz = ⟨1280, 720⟩) (c3 : s.wipe.bs = 16)
    (c4 : s.wipe.offs.length = 80) (hd : s.player.deadtime = -1) :
    (ticks rnds (maxStagger (rnds 1) 80 + 56) s).gamestate = Gamestate.GSTitle := by
  rw [(ticks_complete rnds s hg c1 c3 c4 hd).2]
  rw [nextstate_of_dead (wipeState s ((maxStagger (rnds 1) 80 : Int) + 55) (List.replicate 80 720)) hg]

theorem reachable_ticks (rnds : Nat → Nat → Nat) (n : Nat) (s : State) (h : Reachable s) :
    Reachable (ticks rnds n s) := by
  induction n with
  | zero => exact h
  | succ n ih => exact Reachable.tick _ _ ih

theorem started_reachable : Reachable started := Reachable.event _ _ Reachable.init

set_option maxRecDepth 1000000 in
theorem afterDeath_reached : ticks (fun _ _ => 0) 169 started = afterDeath := by decide!

theorem afterDeath_reachable : Reachable afterDeath := by
  rw [← afterDeath_reached]
  exact reachable_ticks _ _ _ started_reachable

set_option maxRecDepth 1000000 in
theorem beforeTouch_reached : ticks (fun _ _ => 0) 53 started = beforeTouch := by decide!

theorem beforeTouch_reachable : Reachable beforeTouch := by
  rw [← beforeTouch_reached]
  exact reachable_ticks _ _ _ started_reachable

theorem wipeDone_reached : ticks (fun _ _ => 0) 55 afterDeath = wipeDone := by
  have h := (ticks_complete (fun _ _ => 0) afterDeath rfl rfl rfl rfl rfl).1
  have e : ∀ n, maxStagger (fun _ => 0) n = 0 := by
    intro n
    induction n with
    | zero => rfl
    | succ n ih => unfold maxStagger; rw [ih]; rfl
  rw [e] at h
  exact h

theorem wipeDone_reachable : Reachable wipeDone := by
  rw [← wipeDone_reached]
  exact reachable_ticks _ _ _ afterDeath_reachable

/-! ## The three ways a Playing tick can go -/

theorem play_exit (s : State) (hg : s.gamestate = Gamestate.GSPlaying)
    (hx : BETWEEN (s.player.x + stepx s) 0 (toInt s.winsz.width - PLAYER_SIZE) = false) :
    play s = { moveplayer s with
      gamestate := Gamestate.GSDead,
      player := { (moveplayer s).player with deadtime := -1 } } := by
  have hx2 : (!BETWEEN (moveplayer s).player.x 0 (toInt (moveplayer s).winsz.width - PLAYER_SIZE))
      = true := by
    show (!BETWEEN (s.player.x + stepx s) 0 (toInt s.winsz.width - PLAYER_SIZE)) = true
    rw [hx]; rfl
  unfold play
  dsimp only
  rw [if_pos hx2]
  exact nextstate_of_playing (moveplayer s) hg

theorem play_touch (s : State)
    (hx : BETWEEN (s.player.x + stepx s) 0 (toInt s.winsz.width - PLAYER_SIZE) = true)
    (ht : touchingbar (wallbounce s) = true) :
    play s = { wallbounce s with
      player := { (wallbounce s).player with
        score := ((wallbounce s).player.score + 1) % UINT_RANGE,
        direction := ((wallbounce s).player.direction ^^^ 1) % 256,
        x := s.player.x - stepx s },
      activebar := (((wallbounce s).player.direction ^^^ 1) % 256) &&& 1,
      barmove := 0 } := by
  have hx2 : ¬ (!BETWEEN (moveplayer s).player.x 0 (toInt (moveplayer s).winsz.width - PLAYER_SIZE))
      = true := by
    show ¬ (!BETWEEN (s.player.x + stepx s) 0 (toInt s.winsz.width - PLAYER_SIZE)) = true
    rw [hx]; decide
  unfold play
  dsimp only
  rw [if_neg hx2, if_pos ht]

theorem play_miss (s : State)
    (hx : BETWEEN (s.player.x + stepx s) 0 (toInt s.winsz.width - PLAYER_SIZE) = true)
    (ht : touchingbar (wallbounce s) = false) :
    play s = wallbounce s := by
  have hx2 : ¬ (!BETWEEN (moveplayer s).player.x 0 (toInt (moveplayer s).winsz.width - PLAYER_SIZE))
      = true := by
    show ¬ (!BETWEEN (s.player.x + stepx s) 0 (toInt s.winsz.width - PLAYER_SIZE)) = true
    rw [hx]; decide
  have ht2 : ¬ touchingbar (wallbounce s) = true := by rw [ht]; decide
  unfold play
  dsimp only
  rw [if_neg hx2, if_neg ht2]

/-- What `wallbounce` leaves alone, in any state. -/
theorem wallbounce_keeps (s : State) :
    (wallbounce s).gamestate = s.gamestate ∧ (wallbounce s).player.score = s.player.score
    ∧ (wallbounce s).barmove = s.barmove ∧ (wallbounce s).activebar = s.activebar
    ∧ (wallbounce s).player.deadtime = s.player.deadtime ∧ (wallbounce s).wipe = s.wipe
    ∧ (wallbounce s).quit = s.quit ∧ (wallbounce s).winsz = s.winsz
    ∧ (wallbounce s).barsz = s.barsz ∧ (wallbounce s).bars = (movebar s).bars
    ∧ (wallbounce s).player.x = s.player.x + stepx s
    ∧ (wallbounce s).player.direction &&& 1 = s.player.direction &&& 1 := by
  unfold wallbounce
  dsimp only
  split
  · exact ⟨rfl, rfl, rfl, rfl, rfl, rfl, rfl, rfl, rfl, rfl, rfl, xor_two_and_one _⟩
  · exact ⟨rfl, rfl, rfl, rfl, rfl, rfl, rfl, rfl, rfl, rfl, rfl, rfl⟩

theorem tick_playing (rnd : Nat → Nat) (s : State) (hg : s.gamestate = Gamestate.GSPlaying) :
    tick rnd s = play s := by
  unfold tick; rw [hg]

theorem tick_title (rnd : Nat → Nat) (s : State) (hg : s.gamestate = Gamestate.GSTitle) :
    tick rnd s = bounceplayer s := by
  unfold tick; rw [hg]

/-! ## The flag `done` of `dowipe`, for any array of offsets -/

theorem getD_set_ne (offs : List Int) (i j : Nat) (v : Int) (h : i ≠ j) :
    (offs.set i v).getD j 0 = offs.getD j 0 := by
  rw [List.getD_eq_getElem?_getD, List.getD_eq_getElem?_getD, List.getElem?_set_ne h]

theorem wipeloop_flag (height bs : Int) (n i : Nat) (offs : List Int) (done : Bool) :
    (wipeloop height bs n i offs done).2 = true ↔
      done = true ∧ ∀ j, i ≤ j → j < i + n → 0 ≤ offs.getD j 0 ∧ height ≤ offs.getD j 0 := by
  induction n generalizing i offs done with
  | zero =>
    show done = true ↔ _
    constructor
    · exact fun h => ⟨h, fun j h1 h2 => absurd h2 (by omega)⟩
    · exact fun h => h.1
  | succ n ih =>
    have hrest : ∀ (v : Int) (j : Nat), i + 1 ≤ j → (offs.set i v).getD j 0 = offs.getD j 0 :=
      fun v j hj => getD_set_ne offs i j v (by omega)
    unfold wipeloop
    by_cases h1 : offs.getD i 0 < 0
    · rw [if_pos h1, ih]
      constructor
      · intro h; exact absurd h.1 (by decide)
      · intro h; have := (h.2 i (Nat.le_refl i) (by omega)).1; omega
    · rw [if_neg h1]
      by_cases h2 : offs.getD i 0 < height
      · rw [if_pos h2, ih]
        constructor
        · intro h; exact absurd h.1 (by decide)
        · intro h; have := (h.2 i (Nat.le_refl i) (by omega)).2; omega
      · rw [if_neg h2, ih]
        constructor
        · intro h
          refine ⟨h.1, fun j hj1 hj2 => ?_⟩
          rcases Nat.eq_or_lt_of_le hj1 with e | e
          · subst e; omega
          · exact h.2 j e (by omega)
        · intro h
          exact ⟨h.1, fun j hj1 hj2 => h.2 j (by omega) (by omega)⟩

/-- The entry into the title: what `nextstate` sets when it is called in the Dead state. -/
theorem nextstate_dead_fields (t : State) (hg : t.gamestate = Gamestate.GSDead) :
    (nextstate t).gamestate = Gamestate.GSTitle
    ∧ (nextstate t).player.score = 0
    ∧ (nextstate t).bars.1.y = 0 ∧ (nextstate t).bars.2.y = 0
    ∧ (nextstate t).player.x = toInt (usub t.winsz.width (toUnsigned PLAYER_SIZE) / 2)
    ∧ (nextstate t).player.y = toInt (usub t.winsz.height (toUnsigned PLAYER_SIZE) / 2)
    ∧ (nextstate t).player.deadtime = -1 := by
  rw [nextstate_of_dead t hg]
  exact ⟨rfl, rfl, rfl, rfl, rfl, rfl, rfl⟩

/-- A tick of `dowipe` in the Dead state either stays in Dead, or it is a tick whose counter
has reached 10, that found every column at or beyond the arena height, and that ends with
`nextstate`. -/
theorem dowipe_cases (rnd : Nat → Nat) (s : State) (hg : s.gamestate = Gamestate.GSDead) :
    ((dowipe rnd s).gamestate = Gamestate.GSDead
      ∧ (dowipe rnd s).player.score = s.player.score
      ∧ (dowipe rnd s).bars = s.bars ∧ (dowipe rnd s).barmove = s.barmove
      ∧ (dowipe rnd s).activebar = s.activebar
      ∧ (dowipe rnd s).player.direction = s.player.direction)
    ∨ ((dowipe rnd s).gamestate = Gamestate.GSTitle
      ∧ (dowipe rnd s).player.score = 0
      ∧ 10 ≤ s.player.deadtime + 1
      ∧ ∀ j, j < (blocks s).toNat →
          0 ≤ s.wipe.offs.getD j 0 ∧ toInt s.winsz.height ≤ s.wipe.offs.getD j 0) := by
  unfold dowipe
  dsimp only
  by_cases hd : s.player.deadtime = 0
  · have hw : (0 : Int) + 1 < 10 := by decide
    simp only [if_pos hd, hd, hw, if_true]
    left
    refine ⟨?_, ?_, ?_, ?_, ?_, ?_⟩ <;> first | exact hg | rfl | trivial
  · simp only [if_neg hd]
    by_cases hw : s.player.deadtime + 1 < 10
    · simp only [if_pos hw]
      left
      refine ⟨?_, ?_, ?_, ?_, ?_, ?_⟩ <;> first | exact hg | rfl | trivial
    · simp only [if_neg hw]
      split
      · rename_i hdone
        right
        have hf := (wipeloop_flag _ _ _ _ _ _).1 hdone
        refine ⟨?_, ?_, by omega, fun j hj => hf.2 j (Nat.zero_le j) (by omega)⟩
        · exact (nextstate_dead_fields _ (by exact hg)).1
        · exact (nextstate_dead_fields _ (by exact hg)).2.1
      · left
        refine ⟨?_, ?_, ?_, ?_, ?_, ?_⟩ <;> first | exact hg | rfl

/-! ## Claim C3: the score over one tick -/

theorem keypress_gamestate (ks : Int) (s : State) :
    (keypress ks s).gamestate = s.gamestate
    ∨ (s.gamestate = Gamestate.GSTitle ∧ ks = XK_Return
        ∧ (keypress ks s).gamestate = Gamestate.GSPlaying) := by
  by_cases h : s.gamestate = Gamestate.GSTitle ∧ ks = XK_Return
  · right
    refine ⟨h.1, h.2, ?_⟩
    unfold keypress
    dsimp only
    rw [if_pos h, nextstate_of_title s h.1]
    split_ifs <;> rfl
  · left
    unfold keypress
    dsimp only
    rw [if_neg h]
    split_ifs <;> rfl

/-- C4: every change of the game state is one of Title → Playing, Playing → Dead and
Dead → Title.  A handled event changes the game state only when it is a key press of Return
in Title, and then to Playing; a tick changes it only from Playing to Dead, when the stepped
`x` is outside `[0, width - PLAYER_SIZE]`, or from Dead to Title, when the wipe counter has
reached 10 and the tick found no column to advance (every offset non-negative and at least
the arena height). -/
theorem C4_transitions_form_a_cycle (s : State) :
    (∀ e : Event, (handle e s).gamestate = s.gamestate
      ∨ (s.gamestate = Gamestate.GSTitle ∧ e = Event.keypress XK_Return
          ∧ (handle e s).gamestate = Gamestate.GSPlaying))
    ∧ (∀ rnd : Nat → Nat, (tick rnd s).gamestate = s.gamestate
      ∨ (s.gamestate = Gamestate.GSPlaying ∧ (tick rnd s).gamestate = Gamestate.GSDead
          ∧ ¬ (0 ≤ s.player.x + stepx s
                ∧ s.player.x + stepx s ≤ toInt s.winsz.width - PLAYER_SIZE))
      ∨ (s.gamestate = Gamestate.GSDead ∧ (tick rnd s).gamestate = Gamestate.GSTitle
          ∧ 10 ≤ s.player.deadtime + 1
          ∧ ∀ j, j < (blocks s).toNat →
              0 ≤ s.wipe.offs.getD j 0 ∧ toInt s.winsz.height ≤ s.wipe.offs.getD j 0)) := by
  constructor
  · intro e
    cases e with
    | keypress ks =>
      rcases keypress_gamestate ks s with h | h
      · left; exact h
      · right; exact ⟨h.1, by rw [h.2.1], h.2.2⟩
    | keyrelease ks =>
      left
      show (keyrelease ks s).gamestate = _
      unfold keyrelease
      split_ifs <;> rfl
    | message del =>
      left
      show (message del s).gamestate = _
      unfold message
      split <;> rfl
    | other => left; rfl
  · intro rnd
    cases hg : s.gamestate
    · left
      rw [tick_title rnd s hg]
      unfold bounceplayer
      dsimp only
      split <;> exact hg
    · rw [tick_playing rnd s hg]
      cases hx : BETWEEN (s.player.x + stepx s) 0 (toInt s.winsz.width - PLAYER_SIZE)
      · right; left
        refine ⟨rfl, ?_, ?_⟩
        · rw [play_exit s hg hx]
        · intro hin
          have := (BETWEEN_iff _ _ _).2 hin
          rw [hx] at this
          exact absurd this (by decide)
      · left
        cases ht : touchingbar (wallbounce s)
        · rw [play_miss s hx ht, (wallbounce_keeps s).1]; exact hg
        · rw [play_touch s hx ht]
          show (wallbounce s).gamestate = _
          rw [(wallbounce_keeps s).1]; exact hg
    · rw [tick_dead rnd s hg]
      rcases dowipe_cases rnd s hg with h | h
      · left; exact h.1
      · right; right; exact ⟨rfl, h.1, h.2.2.1, h.2.2.2⟩

/-! ## Claim C5: the bar touch -/

/-- C5 (counterexample): in the scenario of the claim (player at `x = 90` moving Left, left
bar active with `edge_x = 85` and `y = 0`, player `y` inside the bar span) the stepped
`x = 80` is inside the arena and the touch test succeeds; after the tick the score is 1, the
direction is Right and the right bar is active, but `x` is 100, not the 90 it had before the
step.  The same happens in the run of the program: the reachable state `beforeTouch` has
`x = 92` and the touching tick leaves `x = 102`. -/
theorem C5_touch_counterexample :
    (touchScenario.gamestate = Gamestate.GSPlaying
      ∧ touchScenario.player.x = 90
      ∧ BETWEEN (touchScenario.player.x + stepx touchScenario) 0
          (toInt touchScenario.winsz.width - PLAYER_SIZE) = true
      ∧ touchingbar (wallbounce touchScenario) = true
      ∧ (tick (fun _ => 0) touchScenario).player.score = 1
      ∧ (tick (fun _ => 0) touchScenario).player.direction &&& 1 = 1
      ∧ (tick (fun _ => 0) touchScenario).activebar = 1
      ∧ (tick (fun _ => 0) touchScenario).player.x = 100
      ∧ ¬ ((tick (fun _ => 0) touchScenario).player.x = touchScenario.player.x))
    ∧ (Reachable beforeTouch
      ∧ beforeTouch.player.x = 92
      ∧ touchingbar (wallbounce beforeTouch) = true
      ∧ (tick (fun _ => 0) beforeTouch).player.score = 1
      ∧ (tick (fun _ => 0) beforeTouch).player.x = 102) :=
  ⟨by decide, beforeTouch_reachable, by decide, by decide, by decide, by decide⟩

/-- C5 (amended): in a Playing tick whose stepped `x` is inside the horizontal bounds and
whose touch test succeeds, the score becomes the old score plus one (reduced modulo `2^32`),
the horizontal direction bit is flipped, the player's `x` becomes the value it had before
the step minus the step (10 more than before when it was moving Left, 10 less when it was
moving Right), the active bar becomes the bar of the new direction, `barmove` becomes 0
and the game stays in Playing. -/
theorem C5_touch_effects (rnd : Nat → Nat) (s : State)
    (hg : s.gamestate = Gamestate.GSPlaying)
    (hx : BETWEEN (s.player.x + stepx s) 0 (toInt s.winsz.width - PLAYER_SIZE) = true)
    (ht : touchingbar (wallbounce s) = true) :
    (tick rnd s).player.score = (s.player.score + 1) % UINT_RANGE
    ∧ (tick rnd s).player.direction &&& 1 = 1 - (s.player.direction &&& 1)
    ∧ (tick rnd s).player.x = s.player.x - stepx s
    ∧ (s.player.direction &&& 1 = 0 → (tick rnd s).player.x = s.player.x + 10)
    ∧ (s.player.direction &&& 1 = 1 → (tick rnd s).player.x = s.player.x - 10)
    ∧ (tick rnd s).activebar = (tick rnd s).player.direction &&& 1
    ∧ (tick rnd s).barmove = 0
    ∧ (tick rnd s).gamestate = Gamestate.GSPlaying := by
  have hk := wallbounce_keeps s
  rw [tick_playing rnd s hg, play_touch s hx ht]
  refine ⟨?_, ?_, rfl, ?_, ?_, rfl, rfl, ?_⟩
  · show ((wallbounce s).player.score + 1) % UINT_RANGE = _
    rw [hk.2.1]
  · show (((wallbounce s).player.direction ^^^ 1) % 256) &&& 1 = _
    rw [xor_one_and_one, hk.2.2.2.2.2.2.2.2.2.2.2]
  · intro h0
    show s.player.x - stepx s = _
    rcases stepx_cases s with ⟨_, hs⟩ | ⟨h1, _⟩
    · rw [hs]; omega
    · rw [h0] at h1; exact absurd h1 (by decide)
  · intro h1
    show s.player.x - stepx s = _
    rcases stepx_cases s with ⟨h0, _⟩ | ⟨_, hs⟩
    · rw [h1] at h0; exact absurd h0 (by decide)
    · rw [hs]
  · show (wallbounce s).gamestate = _
    rw [hk.1]; exact hg

/-- Witness for C5: the theorem applied to the touch scenario. -/
theorem C5_touch_effects_witness :
    (tick (fun _ => 0) touchScenario).player.score = (touchScenario.player.score + 1) % UINT_RANGE
    ∧ (tick (fun _ => 0) touchScenario).player.direction &&& 1
        = 1 - (touchScenario.player.direction &&& 1)
    ∧ (tick (fun _ => 0) touchScenario).player.x
        = touchScenario.player.x - stepx touchScenario
    ∧ (touchScenario.player.direction &&& 1 = 0
        → (tick (fun _ => 0) touchScenario).player.x = touchScenario.player.x + 10)
    ∧ (touchScenario.player.direction &&& 1 = 1
        → (tick (fun _ => 0) touchScenario).player.x = touchScenario.player.x - 10)
    ∧ (tick (fun _ => 0) touchScenario).activebar
        = (tick (fun _ => 0) touchScenario).player.direction &&& 1
    ∧ (tick (fun _ => 0) touchScenario).barmove = 0
    ∧ (tick (fun _ => 0) touchScenario).gamestate = Gamestate.GSPlaying :=
  C5_touch_effects (fun _ => 0) touchScenario (by decide) (by decide) (by decide)

/-! ## Claim C6: the wipe ends -/

/-- C6: from the entry into Dead (counter at -1, 80 columns, arena 1280x720, block size 16),
whatever values the random source returns, repeated ticks reach the Dead → Title transition
after a number of ticks that is at most 65 (= 10 + 9 + 45 + 1), a bound that does not depend
on the stagger values; until then the game stays in Dead. -/
theorem C6_wipe_completes_within_bound (rnds : Nat → Nat → Nat) (s : State)
    (hg : s.gamestate = Gamestate.GSDead) (c1 : s.winsz = ⟨1280, 720⟩) (c3 : s.wipe.bs = 16)
    (c4 : s.wipe.offs.length = 80) (hd : s.player.deadtime = -1) :
    ∃ n, n ≤ 65 ∧ (ticks rnds n s).gamestate = Gamestate.GSTitle
      ∧ ∀ m, m < n → (ticks rnds m s).gamestate = Gamestate.GSDead :=
  ⟨maxStagger (rnds 1) 80 + 56,
    by have := maxStagger_le (rnds 1) 80; omega,
    ticks_title_at rnds s hg c1 c3 c4 hd,
    fun m hm => ticks_dead_before rnds s hg c1 c3 c4 hd m hm⟩

/-- Witness for C6: the first death of the run without bar moves, every stagger value 9. -/
theorem C6_wipe_completes_within_bound_witness :
    ∃ n, n ≤ 65 ∧ (ticks (fun _ _ => 9) n afterDeath).gamestate = Gamestate.GSTitle
      ∧ ∀ m, m < n → (ticks (fun _ _ => 9) m afterDeath).gamestate = Gamestate.GSDead :=
  C6_wipe_completes_within_bound (fun _ _ => 9) afterDeath (by decide) (by decide) (by decide)
    (by decide) (by decide)

/-! ## Claim C7: death at the left wall and the start of the wipe -/

theorem stagger_getD (rnd : Nat → Nat) (n i : Nat) (hi : i < n) :
    (stagger rnd n).getD i 0 = -((rnd i % 10 : Nat) : Int) := by
  unfold stagger
  rw [List.getD_eq_getElem?_getD, List.getElem?_map, List.getElem?_range hi]
  rfl

/-- C7 (counterexample): in the exit scenario (Playing, `x = 0`, moving Left) the tick
enters Dead, but `deadtime` is -1 after it, not 0, and the next tick (the first `dowipe`
call) leaves the column offsets as they were (all 0) instead of writing the stagger values
(all -7 for a random source that always returns 7).  The state `afterDeath`, which the
program reaches with the tick of its first death, has `deadtime = -1` as well. -/
theorem C7_death_counterexample :
    (exitScenario.gamestate = Gamestate.GSPlaying
      ∧ exitScenario.player.x = 0
      ∧ exitScenario.player.direction &&& 1 = 0
      ∧ (tick (fun _ => 7) exitScenario).gamestate = Gamestate.GSDead
      ∧ (tick (fun _ => 7) exitScenario).player.deadtime = -1
      ∧ ¬ ((tick (fun _ => 7) exitScenario).player.deadtime = 0)
      ∧ (tick (fun _ => 7) (tick (fun _ => 7) exitScenario)).wipe.offs = List.replicate 80 0
      ∧ ¬ ((tick (fun _ => 7) (tick (fun _ => 7) exitScenario)).wipe.offs
            = List.replicate 80 (-7)))
    ∧ (Reachable afterDeath
      ∧ afterDeath.gamestate = Gamestate.GSDead
      ∧ afterDeath.player.deadtime = -1) :=
  ⟨by decide, afterDeath_reachable, by decide, by decide⟩

/-- C7 (amended): a Playing tick that starts with the player at `x = 0` moving Left enters
Dead in that tick and leaves `deadtime = -1` and the column offsets untouched; the first
`dowipe` tick after the death raises `deadtime` to 0 and still leaves the offsets
untouched; the second `dowipe` tick writes minus a random value in `0..9` into every one of
the 80 columns and raises `deadtime` to 1. -/
theorem C7_death_then_wipe_start (r0 r1 r2 : Nat → Nat) (s : State)
    (hg : s.gamestate = Gamestate.GSPlaying) (c1 : s.winsz = ⟨1280, 720⟩)
    (c3 : s.wipe.bs = 16) (c4 : s.wipe.offs.length = 80)
    (hx : s.player.x = 0) (hl : s.player.direction &&& 1 = 0) :
    ((tick r0 s).gamestate = Gamestate.GSDead
      ∧ (tick r0 s).player.deadtime = -1
      ∧ (tick r0 s).wipe.offs = s.wipe.offs)
    ∧ ((tick r1 (tick r0 s)).gamestate = Gamestate.GSDead
      ∧ (tick r1 (tick r0 s)).player.deadtime = 0
      ∧ (tick r1 (tick r0 s)).wipe.offs = s.wipe.offs)
    ∧ ((tick r2 (tick r1 (tick r0 s))).gamestate = Gamestate.GSDead
      ∧ (tick r2 (tick r1 (tick r0 s))).player.deadtime = 1
      ∧ (tick r2 (tick r1 (tick r0 s))).wipe.offs.length = 80
      ∧ ∀ i, i < 80 →
          (tick r2 (tick r1 (tick r0 s))).wipe.offs.getD i 0 = -((r2 i % 10 : Nat) : Int)
          ∧ r2 i % 10 ≤ 9) := by
  have hstep : BETWEEN (s.player.x + stepx s) 0 (toInt s.winsz.width - PLAYER_SIZE) = false := by
    rcases stepx_cases s with ⟨_, hs⟩ | ⟨h1, _⟩
    · rw [hx, hs]
      unfold BETWEEN
      have : decide ((0 : Int) ≤ 0 + -10) = false := by decide
      rw [this]
      rfl
    · rw [hl] at h1; exact absurd h1 (by decide)
  have e0 : tick r0 s = { moveplayer s with
      gamestate := Gamestate.GSDead,
      player := { (moveplayer s).player with deadtime := -1 } } := by
    rw [tick_playing r0 s hg, play_exit s hg hstep]
  have g0 : (tick r0 s).gamestate = Gamestate.GSDead := by rw [e0]
  have d0 : (tick r0 s).player.deadtime = -1 := by rw [e0]
  have w0 : (tick r0 s).wipe = s.wipe := by rw [e0]; rfl
  have z0 : (tick r0 s).winsz = s.winsz := by rw [e0]; rfl
  have e1 : tick r1 (tick r0 s) = { (tick r0 s) with
      player := { (tick r0 s).player with deadtime := (tick r0 s).player.deadtime + 1 } } := by
    rw [tick_dead r1 _ g0]
    exact dowipe_wait r1 _ (by rw [d0]; decide) (by rw [d0]; decide)
  have g1 : (tick r1 (tick r0 s)).gamestate = Gamestate.GSDead := by rw [e1]; exact g0
  have d1 : (tick r1 (tick r0 s)).player.deadtime = 0 := by
    rw [e1]
    show (tick r0 s).player.deadtime + 1 = 0
    rw [d0]; rfl
  have w1 : (tick r1 (tick r0 s)).wipe = s.wipe := by rw [e1]; exact w0
  have z1 : (tick r1 (tick r0 s)).winsz = s.winsz := by rw [e1]; exact z0
  have e2 : tick r2 (tick r1 (tick r0 s)) = { (tick r1 (tick r0 s)) with
      wipe := { (tick r1 (tick r0 s)).wipe with offs := stagger r2 80 },
      player := { (tick r1 (tick r0 s)).player with deadtime := 1 } } := by
    rw [tick_dead r2 _ g1]
    exact dowipe_zero r2 _ (by rw [z1]; exact c1) (by rw [w1]; exact c3) (by rw [w1]; exact c4) d1
  refine ⟨⟨g0, d0, by rw [w0]⟩, ⟨g1, d1, by rw [w1]⟩, ?_, ?_, ?_, ?_⟩
  · rw [e2]; exact g1
  · rw [e2]
  · rw [e2]; exact stagger_length r2 80
  · intro i hi
    rw [e2]
    exact ⟨stagger_getD r2 80 i hi, by omega⟩

/-- Witness for C7: the theorem applied to the exit scenario. -/
theorem C7_death_then_wipe_start_witness :
    (tick (fun _ => 7) exitScenario).gamestate = Gamestate.GSDead
    ∧ (tick (fun _ => 7) exitScenario).player.deadtime = -1
    ∧ (tick (fun _ => 7) (tick (fun _ => 7) exitScenario)).player.deadtime = 0
    ∧ (tick (fun _ => 7) (tick (fun _ => 7) (tick (fun _ => 7) exitScenario))).player.deadtime
        = 1
    ∧ (tick (fun _ => 7) (tick (fun _ => 7) (tick (fun _ => 7) exitScenario))).wipe.offs.getD
        79 0 = -7 :=
  have h := C7_death_then_wipe_start (fun _ => 7) (fun _ => 7) (fun _ => 7) exitScenario
    (by decide) (by decide) (by decide) (by decide) (by decide) (by decide)
  ⟨h.1.1, h.1.2.1, h.2.1.2.1, h.2.2.2.1, (h.2.2.2.2.2 79 (by decide)).1⟩

/-! ## Claim C8: the touch test -/

/-- C8: with arena height 720 and bar height 360 (dimensions in 32-bit unsigned arithmetic)
and the active bar's `y` in `[-180, 180]`, `touchingbar` is true exactly when
`player.x ≤ edge_x ≤ player.x + 35` and `360 - 180 - bar.y ≤ player.y ≤ 360 + 180 - bar.y`;
the only vertical coordinate of the player that enters the test is its top edge `y`. -/
theorem C8_touchingbar_characterised (s : State) (hw : s.winsz.height = 720)
    (hb : s.barsz.height = 360) (h1 : -180 ≤ (getbar s.bars s.activebar).y)
    (h2 : (getbar s.bars s.activebar).y ≤ 180) :
    touchingbar s = true ↔
      (s.player.x ≤ (getbar s.bars s.activebar).edge_x
        ∧ (getbar s.bars s.activebar).edge_x ≤ s.player.x + 35)
      ∧ (360 - 180 - (getbar s.bars s.activebar).y ≤ s.player.y
        ∧ s.player.y ≤ 360 + 180 - (getbar s.bars s.activebar).y) :=
  touchingbar_iff s hw hb h1 h2

/-- Witness for C8: the touch scenario after its step (player at `x = 80`, left bar). -/
theorem C8_touchingbar_characterised_witness :
    touchingbar (wallbounce touchScenario) = true ↔
      ((wallbounce touchScenario).player.x
          ≤ (getbar (wallbounce touchScenario).bars (wallbounce touchScenario).activebar).edge_x
        ∧ (getbar (wallbounce touchScenario).bars (wallbounce touchScenario).activebar).edge_x
          ≤ (wallbounce touchScenario).player.x + 35)
      ∧ (360 - 180 - (getbar (wallbounce touchScenario).bars
            (wallbounce touchScenario).activebar).y ≤ (wallbounce touchScenario).player.y
        ∧ (wallbounce touchScenario).player.y
          ≤ 360 + 180 - (getbar (wallbounce touchScenario).bars
            (wallbounce touchScenario).activebar).y) :=
  C8_touchingbar_characterised (wallbounce touchScenario) (by decide) (by decide) (by decide)
    (by decide)

/-! ## Claim C9: the bars stay in their range -/

theorem play_bars_barmove (s : State) (hg : s.gamestate = Gamestate.GSPlaying) :
    (play s).bars = (movebar s).bars
    ∧ ((play s).barmove = s.barmove ∨ (play s).barmove = 0) := by
  cases hx : BETWEEN (s.player.x + stepx s) 0 (toInt s.winsz.width - PLAYER_SIZE)
  · rw [play_exit s hg hx]
    exact ⟨rfl, Or.inl rfl⟩
  · cases ht : touchingbar (wallbounce s)
    · rw [play_miss s hx ht]
      exact ⟨(wallbounce_keeps s).2.2.2.2.2.2.2.2.2.1, Or.inl (wallbounce_keeps s).2.2.1⟩
    · rw [play_touch s hx ht]
      exact ⟨(wallbounce_keeps s).2.2.2.2.2.2.2.2.2.1, Or.inr rfl⟩

theorem getbar_setbar (b : Bar × Bar) (i : Nat) (v : Bar) : getbar (setbar b i v) i = v := by
  unfold getbar setbar
  by_cases h0 : i = 0
  · simp only [if_pos h0]
  · simp only [if_neg h0]

/-- C9: in every reachable state both bars' `y` lie in `[-180, 180]`, and the two bounds
`play` computes are -180 and 180; a Playing tick leaves in the active bar's `y` the old
value plus `barmove * 10` when that lies in `[-180, 180]` and the old value otherwise, does
not change the other bar, and leaves `barmove` as it was or at 0 (it is never negated). -/
theorem C9_bars_stay_in_range (s : State) (h : Reachable s) :
    (-180 ≤ s.bars.1.y ∧ s.bars.1.y ≤ 180 ∧ -180 ≤ s.bars.2.y ∧ s.bars.2.y ≤ 180)
    ∧ barlo s = -180 ∧ barhi s = 180
    ∧ (s.gamestate = Gamestate.GSPlaying → ∀ rnd : Nat → Nat,
        (getbar (tick rnd s).bars s.activebar).y
          = (if -180 ≤ (getbar s.bars s.activebar).y + s.barmove * 10
                ∧ (getbar s.bars s.activebar).y + s.barmove * 10 ≤ 180
             then (getbar s.bars s.activebar).y + s.barmove * 10
             else (getbar s.bars s.activebar).y)
        ∧ getbar (tick rnd s).bars (1 - s.activebar) = getbar s.bars (1 - s.activebar)
        ∧ ((tick rnd s).barmove = s.barmove ∨ (tick rnd s).barmove = 0)) := by
  have hi := (reachable_inv s h).core
  have c1 := hi.cfg.winsz
  have c2 := hi.cfg.barsz
  refine ⟨⟨hi.ly.1, hi.ly.2, hi.ry.1, hi.ry.2⟩, cfg_barlo s c1 c2, cfg_barhi s c1 c2, ?_⟩
  intro hg rnd
  have hp := play_bars_barmove s hg
  rw [tick_playing rnd s hg, hp.1, movebar_eq s c1 c2]
  refine ⟨?_, ?_, hp.2⟩
  · show (getbar (setbar s.bars s.activebar
        { (getbar s.bars s.activebar) with y := newbary s }) s.activebar).y = _
    rw [getbar_setbar]
    rfl
  · show getbar (setbar s.bars s.activebar
        { (getbar s.bars s.activebar) with y := newbary s }) (1 - s.activebar) = _
    rcases and_one_cases s.player.direction with hd | hd
    · have h0 : s.activebar = 0 := by rw [hi.active, hd]
      rw [h0]; rfl
    · have h0 : s.activebar = 1 := by rw [hi.active, hd]
      rw [h0]; rfl

/-- Witness for C9: the state in which the first round starts. -/
theorem C9_bars_stay_in_range_witness :
    Reachable started ∧ started.gamestate = Gamestate.GSPlaying
    ∧ (-180 ≤ started.bars.1.y ∧ started.bars.1.y ≤ 180
        ∧ -180 ≤ started.bars.2.y ∧ started.bars.2.y ≤ 180)
    ∧ barlo started = -180 ∧ barhi started = 180
    ∧ getbar (tick (fun _ => 0) started).bars (1 - started.activebar)
        = getbar started.bars (1 - started.activebar)
    ∧ ((tick (fun _ => 0) started).barmove = started.barmove
        ∨ (tick (fun _ => 0) started).barmove = 0) :=
  ⟨started_reachable, by decide, (C9_bars_stay_in_range started started_reachable).1,
    (C9_bars_stay_in_range started started_reachable).2.1,
    (C9_bars_stay_in_range started started_reachable).2.2.1,
    ((C9_bars_stay_in_range started started_reachable).2.2.2 (by decide) (fun _ => 0)).2⟩

/-! ## Claim C10: the entry into the title -/

theorem dowipe_title (rnd : Nat → Nat) (s : State) (hg : s.gamestate = Gamestate.GSDead)
    (ht : (dowipe rnd s).gamestate = Gamestate.GSTitle) :
    ∃ t : State, t.gamestate = Gamestate.GSDead ∧ t.winsz = s.winsz
      ∧ dowipe rnd s = nextstate t := by
  have hne : Gamestate.GSDead ≠ Gamestate.GSTitle := by decide
  unfold dowipe at ht ⊢
  dsimp only at ht ⊢
  by_cases hd : s.player.deadtime = 0
  · have hw : (0 : Int) + 1 < 10 := by decide
    simp only [if_pos hd, hd, hw, if_true] at ht
    exact absurd (hg.symm.trans ht) hne
  · simp only [if_neg hd] at ht ⊢
    by_cases hw : s.player.deadtime + 1 < 10
    · simp only [if_pos hw] at ht
      exact absurd (hg.symm.trans ht) hne
    · simp only [if_neg hw] at ht ⊢
      split
      · exact ⟨_, by exact hg, by rfl, rfl⟩
      · rename_i hnd
        rw [if_neg hnd] at ht
        exact absurd (hg.symm.trans ht) hne

/-- C10: whenever the game enters Title through the Dead → Title transition (`nextstate`
called in Dead, which is how a `dowipe` tick ends the wipe), right after the transition the
score is 0, both bars' `y` are 0, the player is at `((1280-35)/2, (720-35)/2) = (622, 342)`
and `deadtime` is -1, whatever the values were before. -/
theorem C10_title_entry_resets (s : State) (hg : s.gamestate = Gamestate.GSDead)
    (c1 : s.winsz = ⟨1280, 720⟩) :
    ((nextstate s).gamestate = Gamestate.GSTitle
      ∧ (nextstate s).player.score = 0
      ∧ (nextstate s).bars.1.y = 0 ∧ (nextstate s).bars.2.y = 0
      ∧ (nextstate s).player.x = 622 ∧ (nextstate s).player.y = 342
      ∧ (nextstate s).player.deadtime = -1)
    ∧ ∀ rnd : Nat → Nat, (tick rnd s).gamestate = Gamestate.GSTitle →
        (tick rnd s).player.score = 0
        ∧ (tick rnd s).bars.1.y = 0 ∧ (tick rnd s).bars.2.y = 0
        ∧ (tick rnd s).player.x = 622 ∧ (tick rnd s).player.y = 342
        ∧ (tick rnd s).player.deadtime = -1 := by
  have key : ∀ t : State, t.gamestate = Gamestate.GSDead → t.winsz = ⟨1280, 720⟩ →
      (nextstate t).gamestate = Gamestate.GSTitle
      ∧ (nextstate t).player.score = 0
      ∧ (nextstate t).bars.1.y = 0 ∧ (nextstate t).bars.2.y = 0
      ∧ (nextstate t).player.x = 622 ∧ (nextstate t).player.y = 342
      ∧ (nextstate t).player.deadtime = -1 := by
    intro t htg htw
    obtain ⟨f1, f2, f3, f4, f5, f6, f7⟩ := nextstate_dead_fields t htg
    refine ⟨f1, f2, f3, f4, ?_, ?_, f7⟩
    · rw [f5, htw]; exact centre_x
    · rw [f6, htw]; exact centre_y
  refine ⟨key s hg c1, ?_⟩
  intro rnd ht
  rw [tick_dead rnd s hg] at ht ⊢
  obtain ⟨t, htg, htw, he⟩ := dowipe_title rnd s hg ht
  rw [he]
  exact (key t htg (htw.trans c1)).2

/-- Witness for C10: the state in which the wipe of the first death is complete. -/
theorem C10_title_entry_resets_witness :
    (tick (fun _ => 0) wipeDone).gamestate = Gamestate.GSTitle
    ∧ (tick (fun _ => 0) wipeDone).player.score = 0
    ∧ (tick (fun _ => 0) wipeDone).bars.1.y = 0 ∧ (tick (fun _ => 0) wipeDone).bars.2.y = 0
    ∧ (tick (fun _ => 0) wipeDone).player.x = 622 ∧ (tick (fun _ => 0) wipeDone).player.y = 342
    ∧ (tick (fun _ => 0) wipeDone).player.deadtime = -1 :=
  ⟨by decide, (C10_title_entry_resets wipeDone (by decide) (by decide)).2 (fun _ => 0)
    (by decide)⟩

/-! ## Claim C11: when the score changes -/

theorem keypress_score (ks : Int) (s : State) :
    (keypress ks s).player.score = s.player.score := by
  by_cases h : s.gamestate = Gamestate.GSTitle ∧ ks = XK_Return
  · unfold keypress
    dsimp only
    rw [if_pos h, nextstate_of_title s h.1]
    split_ifs <;> rfl
  · unfold keypress
    dsimp only
    rw [if_neg h]
    split_ifs <;> rfl

theorem handle_score (e : Event) (s : State) : (handle e s).player.score = s.player.score := by
  cases e with
  | keypress ks => exact keypress_score ks s
  | keyrelease ks =>
    show (keyrelease ks s).player.score = _
    unfold keyrelease
    split_ifs <;> rfl
  | message del =>
    show (message del s).player.score = _
    unfold message
    split <;> rfl
  | other => rfl

theorem bounceplayer_score (s : State) : (bounceplayer s).player.score = s.player.score := by
  unfold bounceplayer
  dsimp only
  split <;> rfl

/-- C11: in a Playing tick (one call of `play`) the score becomes the old score plus 1, in
the program's unsigned 32-bit arithmetic, when the stepped `x` is inside the horizontal
bounds and the touch test made after the movement succeeds, and it keeps its value in every
other case; for a score below 4294967295 the sum is the old score plus 1 exactly.  No
handled event and no Title-bounce tick changes the score. -/
theorem C11_score_changes_only_on_touch (s : State) :
    (s.gamestate = Gamestate.GSPlaying →
      (play s).player.score =
        if BETWEEN (s.player.x + stepx s) 0 (toInt s.winsz.width - PLAYER_SIZE) = true
            ∧ touchingbar (wallbounce s) = true
        then (s.player.score + 1) % UINT_RANGE
        else s.player.score)
    ∧ (s.gamestate = Gamestate.GSPlaying → 0 ≤ s.player.score → s.player.score < 4294967295 →
        BETWEEN (s.player.x + stepx s) 0 (toInt s.winsz.width - PLAYER_SIZE) = true →
        touchingbar (wallbounce s) = true →
        (play s).player.score = s.player.score + 1)
    ∧ (∀ e : Event, (handle e s).player.score = s.player.score)
    ∧ (bounceplayer s).player.score = s.player.score := by
  have main : s.gamestate = Gamestate.GSPlaying →
      (play s).player.score =
        if BETWEEN (s.player.x + stepx s) 0 (toInt s.winsz.width - PLAYER_SIZE) = true
            ∧ touchingbar (wallbounce s) = true
        then (s.player.score + 1) % UINT_RANGE
        else s.player.score := by
    intro hg
    cases hx : BETWEEN (s.player.x + stepx s) 0 (toInt s.winsz.width - PLAYER_SIZE)
    · rw [if_neg (by simp), play_exit s hg hx]
      rfl
    · cases ht : touchingbar (wallbounce s)
      · rw [if_neg (by simp), play_miss s hx ht]
        exact (wallbounce_keeps s).2.1
      · rw [if_pos ⟨rfl, rfl⟩, play_touch s hx ht]
        show ((wallbounce s).player.score + 1) % UINT_RANGE = _
        rw [(wallbounce_keeps s).2.1]
  refine ⟨main, ?_, fun e => handle_score e s, bounceplayer_score s⟩
  intro hg h0 h1 hx ht
  rw [main hg, if_pos ⟨hx, ht⟩]
  unfold UINT_RANGE
  omega

/-- Witness for C11: the touch scenario, where the score goes from 0 to 1. -/
theorem C11_score_changes_only_on_touch_witness :
    (play touchScenario).player.score = touchScenario.player.score + 1
    ∧ (play touchScenario).player.score = 1 :=
  ⟨(C11_score_changes_only_on_touch touchScenario).2.1 (by decide) (by decide) (by decide)
      (by decide) (by decide), by decide⟩

/-! ## Claim C12: key intents and the states that honour them -/

/-- C12: key intents outside their valid state have no effect.  An Up or Down key press or
release while the game is not Playing leaves the whole state unchanged; a Return key press
while the game is not in Title leaves the whole state unchanged; in Playing, pressing Up
sets `barmove = 1`, pressing Down sets `barmove = -1`, releasing Up or Down sets
`barmove = 0`, and nothing else changes; pressing q or Escape sets `quit` in every game
state and changes nothing else. -/
theorem C12_key_intents (s : State) :
    (s.gamestate ≠ Gamestate.GSPlaying → ∀ ks : Int, ks = XK_Up ∨ ks = XK_Down →
        keypress ks s = s ∧ keyrelease ks s = s)
    ∧ (s.gamestate ≠ Gamestate.GSTitle → keypress XK_Return s = s)
    ∧ (s.gamestate = Gamestate.GSPlaying →
        keypress XK_Up s = { s with barmove := 1 }
        ∧ keypress XK_Down s = { s with barmove := -1 }
        ∧ keyrelease XK_Up s = { s with barmove := 0 }
        ∧ keyrelease XK_Down s = { s with barmove := 0 })
    ∧ (∀ ks : Int, ks = XK_q ∨ ks = XK_Escape → keypress ks s = { s with quit := 1 }) := by
  have n1 : ¬ (XK_Up = XK_Return) := by decide
  have n2 : ¬ (XK_Down = XK_Return) := by decide
  have n3 : ¬ (XK_Up = XK_q ∨ XK_Up = XK_Escape) := by decide
  have n4 : ¬ (XK_Down = XK_q ∨ XK_Down = XK_Escape) := by decide
  have n5 : ¬ (XK_Return = XK_q ∨ XK_Return = XK_Escape) := by decide
  have n6 : ¬ (XK_Return = XK_Up) := by decide
  have n7 : ¬ (XK_Return = XK_Down) := by decide
  have n8 : ¬ (XK_Up = XK_Down) := by decide
  have n9 : ¬ (XK_Down = XK_Up) := by decide
  refine ⟨?_, ?_, ?_, ?_⟩
  · intro hg ks hk
    rcases hk with rfl | rfl
    · have h1 : ¬ (s.gamestate = Gamestate.GSTitle ∧ XK_Up = XK_Return) := fun h => n1 h.2
      refine ⟨?_, ?_⟩
      · unfold keypress
        dsimp only
        rw [if_neg h1, if_neg n3, if_neg hg]
      · unfold keyrelease
        rw [if_neg hg]
    · have h1 : ¬ (s.gamestate = Gamestate.GSTitle ∧ XK_Down = XK_Return) := fun h => n2 h.2
      refine ⟨?_, ?_⟩
      · unfold keypress
        dsimp only
        rw [if_neg h1, if_neg n4, if_neg hg]
      · unfold keyrelease
        rw [if_neg hg]
  · intro hg
    have h1 : ¬ (s.gamestate = Gamestate.GSTitle ∧ XK_Return = XK_Return) := fun h => hg h.1
    unfold keypress
    dsimp only
    rw [if_neg h1, if_neg n5]
    split <;> rfl
  · intro hg
    have hnt : ¬ s.gamestate = Gamestate.GSTitle := by rw [hg]; decide
    have h1 : ¬ (s.gamestate = Gamestate.GSTitle ∧ XK_Up = XK_Return) := fun h => hnt h.1
    have h2 : ¬ (s.gamestate = Gamestate.GSTitle ∧ XK_Down = XK_Return) := fun h => hnt h.1
    have e1 : XK_Up = XK_Up := rfl
    have e2 : XK_Down = XK_Down := rfl
    refine ⟨?_, ?_, ?_, ?_⟩
    · unfold keypress
      dsimp only
      rw [if_neg h1, if_neg n3, if_pos hg, if_pos e1, if_neg n8]
    · unfold keypress
      dsimp only
      rw [if_neg h2, if_neg n4, if_pos hg, if_neg n9, if_pos e2]
    · unfold keyrelease
      rw [if_pos hg, if_pos (Or.inl e1)]
    · unfold keyrelease
      rw [if_pos hg, if_pos (Or.inr e2)]
  · intro ks hk
    have hq : ¬ ks = XK_Return := by
      rcases hk with rfl | rfl <;> decide
    have hu : ¬ ks = XK_Up := by
      rcases hk with rfl | rfl <;> decide
    have hd : ¬ ks = XK_Down := by
      rcases hk with rfl | rfl <;> decide
    have h1 : ¬ (s.gamestate = Gamestate.GSTitle ∧ ks = XK_Return) := fun h => hq h.2
    unfold keypress
    dsimp only
    rw [if_neg h1, if_pos hk]
    split <;> rfl

/-- Witness for C12: Up pressed in the title is ignored, Up pressed in the first round sets
the bar-move intent. -/
theorem C12_key_intents_witness :
    (keypress XK_Up initial = initial ∧ keyrelease XK_Up initial = initial)
    ∧ keypress XK_Return started = started
    ∧ keypress XK_Up started = { started with barmove := 1 }
    ∧ keypress XK_q started = { started with quit := 1 } :=
  ⟨(C12_key_intents initial).1 (by decide) XK_Up (Or.inl rfl),
    (C12_key_intents started).2.1 (by decide),
    ((C12_key_intents started).2.2.1 (by decide)).1,
    (C12_key_intents started).2.2.2 XK_q (Or.inl rfl)⟩

/-! ## Claim C14: one step short of the bar -/

theorem movebar_edge (s : State) :
    (getbar (movebar s).bars s.activebar).edge_x = (getbar s.bars s.activebar).edge_x := by
  unfold movebar
  dsimp only
  rw [getbar_setbar]

/-- C14: a Playing tick that starts with the player at `x = 100` moving Left, the left bar
active with `edge_x = 85` (arena width 1280), for every player `y`, every vertical direction
and every bar `y`: after the tick `x = 90`, the touch test made in the tick fails, the score
is unchanged, the horizontal direction and the active bar are unchanged, and the game is
still Playing. -/
theorem C14_no_touch_one_step_before (rnd : Nat → Nat) (s : State)
    (hg : s.gamestate = Gamestate.GSPlaying) (hw : s.winsz.width = 1280)
    (hx : s.player.x = 100) (hl : s.player.direction &&& 1 = 0)
    (ha : s.activebar = 0) (he : s.bars.1.edge_x = 85) :
    (tick rnd s).player.x = 90
    ∧ touchingbar (wallbounce s) = false
    ∧ (tick rnd s).player.score = s.player.score
    ∧ (tick rnd s).player.direction &&& 1 = s.player.direction &&& 1
    ∧ (tick rnd s).activebar = s.activebar
    ∧ (tick rnd s).gamestate = Gamestate.GSPlaying := by
  have hk := wallbounce_keeps s
  have hs : stepx s = -10 := by
    rcases stepx_cases s with ⟨_, h⟩ | ⟨h1, _⟩
    · exact h
    · rw [hl] at h1; exact absurd h1 (by decide)
  have hin : BETWEEN (s.player.x + stepx s) 0 (toInt s.winsz.width - PLAYER_SIZE) = true := by
    rw [hx, hs, hw]; decide
  have hedge : (getbar (wallbounce s).bars (wallbounce s).activebar).edge_x = 85 := by
    rw [hk.2.2.2.1, hk.2.2.2.2.2.2.2.2.2.1, movebar_edge, ha]
    exact he
  have ht : touchingbar (wallbounce s) = false := by
    unfold touchingbar
    dsimp only
    rw [hedge, hk.2.2.2.2.2.2.2.2.2.2.1, hx, hs]
    have : BETWEEN 85 (100 + -10) (100 + -10 + PLAYER_SIZE) = false := by decide
    rw [this]
    rfl
  rw [tick_playing rnd s hg, play_miss s hin ht]
  refine ⟨?_, ht, hk.2.1, hk.2.2.2.2.2.2.2.2.2.2.2, hk.2.2.2.1, ?_⟩
  · rw [hk.2.2.2.2.2.2.2.2.2.2.1, hx, hs]; rfl
  · rw [hk.1]; exact hg

/-- Witness for C14: the approach scenario. -/
theorem C14_no_touch_one_step_before_witness :
    (tick (fun _ => 0) approachScenario).player.x = 90
    ∧ touchingbar (wallbounce approachScenario) = false
    ∧ (tick (fun _ => 0) approachScenario).player.score = approachScenario.player.score
    ∧ (tick (fun _ => 0) approachScenario).player.direction &&& 1
        = approachScenario.player.direction &&& 1
    ∧ (tick (fun _ => 0) approachScenario).activebar = approachScenario.activebar
    ∧ (tick (fun _ => 0) approachScenario).gamestate = Gamestate.GSPlaying :=
  C14_no_touch_one_step_before (fun _ => 0) approachScenario (by decide) (by decide) (by decide)
    (by decide) (by decide) (by decide)

/-! ## Claim C17: the horizontal exit ends the tick -/

/-- C17: in a Playing tick (arena width 1280) whose stepped `x` lies outside `[0, 1245]` the
game state becomes Dead and no further rule is applied: the score, the direction (both
axes), the active bar and `barmove` are unchanged, and the position keeps the stepped
values (no wall bounce, no touch).  In any Playing tick that ends in Dead the score is
unchanged, so no tick both enters Dead and increases the score. -/
theorem C17_exit_applies_no_further_rule (rnd : Nat → Nat) (s : State)
    (hg : s.gamestate = Gamestate.GSPlaying) (hw : s.winsz.width = 1280) :
    (¬ (0 ≤ s.player.x + stepx s ∧ s.player.x + stepx s ≤ 1245) →
      (tick rnd s).gamestate = Gamestate.GSDead
      ∧ (tick rnd s).player.score = s.player.score
      ∧ (tick rnd s).player.direction = s.player.direction
      ∧ (tick rnd s).activebar = s.activebar
      ∧ (tick rnd s).barmove = s.barmove
      ∧ (tick rnd s).player.x = s.player.x + stepx s
      ∧ (tick rnd s).player.y = s.player.y + stepy s)
    ∧ ((tick rnd s).gamestate = Gamestate.GSDead →
        (tick rnd s).player.score = s.player.score) := by
  have hb : toInt s.winsz.width - PLAYER_SIZE = 1245 := by rw [hw]; exact width_bound
  rw [tick_playing rnd s hg]
  constructor
  · intro hout
    have hx : BETWEEN (s.player.x + stepx s) 0 (toInt s.winsz.width - PLAYER_SIZE) = false := by
      rw [hb]
      cases hc : BETWEEN (s.player.x + stepx s) 0 1245
      · rfl
      · exact absurd ((BETWEEN_iff _ _ _).1 hc) hout
    rw [play_exit s hg hx]
    exact ⟨rfl, rfl, rfl, rfl, rfl, rfl, rfl⟩
  · intro hd
    cases hx : BETWEEN (s.player.x + stepx s) 0 (toInt s.winsz.width - PLAYER_SIZE)
    · rw [play_exit s hg hx]
      rfl
    · have hne : Gamestate.GSPlaying ≠ Gamestate.GSDead := by decide
      cases ht : touchingbar (wallbounce s)
      · rw [play_miss s hx ht, (wallbounce_keeps s).1, hg] at hd
        exact absurd hd hne
      · rw [play_touch s hx ht] at hd
        have hd2 : (wallbounce s).gamestate = Gamestate.GSDead := hd
        rw [(wallbounce_keeps s).1, hg] at hd2
        exact absurd hd2 hne

/-- Witness for C17: the exit scenario (player at `x = 0` moving Left). -/
theorem C17_exit_applies_no_further_rule_witness :
    (tick (fun _ => 0) exitScenario).gamestate = Gamestate.GSDead
    ∧ (tick (fun _ => 0) exitScenario).player.score = exitScenario.player.score
    ∧ (tick (fun _ => 0) exitScenario).player.direction = exitScenario.player.direction
    ∧ (tick (fun _ => 0) exitScenario).activebar = exitScenario.activebar
    ∧ (tick (fun _ => 0) exitScenario).barmove = exitScenario.barmove
    ∧ (tick (fun _ => 0) exitScenario).player.x = exitScenario.player.x + stepx exitScenario
    ∧ (tick (fun _ => 0) exitScenario).player.y = exitScenario.player.y + stepy exitScenario :=
  (C17_exit_applies_no_further_rule (fun _ => 0) exitScenario (by decide) (by decide)).1
    (by decide)

/-! ## Claim C16: the bounce off the top and bottom walls -/

set_option maxRecDepth 1000000 in
theorem lowPlaying_reached : ticks (fun _ _ => 0) 34 started = lowPlaying := by decide!

set_option maxRecDepth 1000000 in
theorem lowTitle_reached : ticks (fun _ _ => 0) 34 initial = lowTitle := by decide!

theorem lowPlaying_reachable : Reachable lowPlaying := by
  rw [← lowPlaying_reached]
  exact reachable_ticks _ _ _ started_reachable

theorem lowTitle_reachable : Reachable lowTitle := by
  rw [← lowTitle_reached]
  exact reachable_ticks _ _ _ Reachable.init

/-- C16 (counterexample): the reachable Playing state `lowPlaying` and the reachable Title
state `lowTitle` both have `y = 2` and the vertical axis Down, so the step would give
`y = -8`; the tick flips the vertical axis but leaves `y = 12`, not the 2 it had before the
tick (and in `lowPlaying` there is no horizontal exit: `x` goes from 282 to 272). -/
theorem C16_bounce_counterexample :
    (Reachable lowPlaying
      ∧ lowPlaying.gamestate = Gamestate.GSPlaying
      ∧ lowPlaying.player.y = 2 ∧ stepy lowPlaying = -10
      ∧ (tick (fun _ => 0) lowPlaying).gamestate = Gamestate.GSPlaying
      ∧ (tick (fun _ => 0) lowPlaying).player.direction &&& 2 = 2
      ∧ (tick (fun _ => 0) lowPlaying).player.y = 12
      ∧ ¬ ((tick (fun _ => 0) lowPlaying).player.y = lowPlaying.player.y))
    ∧ (Reachable lowTitle
      ∧ lowTitle.gamestate = Gamestate.GSTitle
      ∧ lowTitle.player.y = 2 ∧ stepy lowTitle = -10
      ∧ (tick (fun _ => 0) lowTitle).player.direction &&& 2 = 2
      ∧ (tick (fun _ => 0) lowTitle).player.y = 12
      ∧ ¬ ((tick (fun _ => 0) lowTitle).player.y = lowTitle.player.y)) :=
  ⟨⟨lowPlaying_reachable, by decide⟩, ⟨lowTitle_reachable, by decide⟩⟩

theorem wallbounce_vertical (s : State) (c1 : s.winsz = ⟨1280, 720⟩) :
    (0 ≤ s.player.y + stepy s ∧ s.player.y + stepy s ≤ 685 →
      (wallbounce s).player.y = s.player.y + stepy s
      ∧ (wallbounce s).player.direction = s.player.direction)
    ∧ (¬ (0 ≤ s.player.y + stepy s ∧ s.player.y + stepy s ≤ 685) →
      (wallbounce s).player.y = s.player.y - stepy s
      ∧ (wallbounce s).player.direction = (s.player.direction ^^^ 2) % 256) := by
  rw [wallbounce_eq s c1]
  constructor
  · intro h; rw [if_pos h]; exact ⟨rfl, rfl⟩
  · intro h; rw [if_neg h]; exact ⟨rfl, rfl⟩

theorem play_vertical (s : State)
    (hx : BETWEEN (s.player.x + stepx s) 0 (toInt s.winsz.width - PLAYER_SIZE) = true) :
    (play s).player.y = (wallbounce s).player.y
    ∧ (play s).player.direction &&& 2 = (wallbounce s).player.direction &&& 2 := by
  cases ht : touchingbar (wallbounce s)
  · rw [play_miss s hx ht]
    exact ⟨rfl, rfl⟩
  · rw [play_touch s hx ht]
    exact ⟨rfl, xor_one_and_two _⟩

/-- C16 (amended): whenever applying the vertical step (+10 or -10) would take the player's
`y` outside `[0, 685]`, in a Title bounce tick and in a Playing tick without horizontal
exit, `y` after the tick is the `y` before the tick minus the step (one step the other
way, not the old value) and the vertical axis of the direction is flipped; when the stepped
`y` stays inside the range, `y` changes by exactly the step and the vertical axis is
unchanged. -/
theorem C16_vertical_bounce (rnd : Nat → Nat) (s : State) (c1 : s.winsz = ⟨1280, 720⟩)
    (hg : s.gamestate = Gamestate.GSTitle
      ∨ (s.gamestate = Gamestate.GSPlaying
          ∧ 0 ≤ s.player.x + stepx s ∧ s.player.x + stepx s ≤ 1245)) :
    (stepy s = 10 ∨ stepy s = -10)
    ∧ (¬ (0 ≤ s.player.y + stepy s ∧ s.player.y + stepy s ≤ 685) →
        (tick rnd s).player.y = s.player.y - stepy s
        ∧ (tick rnd s).player.direction &&& 2 = 2 - (s.player.direction &&& 2))
    ∧ (0 ≤ s.player.y + stepy s ∧ s.player.y + stepy s ≤ 685 →
        (tick rnd s).player.y = s.player.y + stepy s
        ∧ (tick rnd s).player.direction &&& 2 = s.player.direction &&& 2) := by
  have hstep : stepy s = 10 ∨ stepy s = -10 := by
    rcases stepy_cases s with ⟨_, h⟩ | ⟨_, h⟩
    · exact Or.inr h
    · exact Or.inl h
  refine ⟨hstep, ?_, ?_⟩
  · intro hout
    rcases hg with hg | ⟨hg, hx1, hx2⟩
    · rw [tick_title rnd s hg, bounceplayer_eq s c1, if_neg hout]
      exact ⟨rfl, xor_two_and_two _⟩
    · have hx : BETWEEN (s.player.x + stepx s) 0 (toInt s.winsz.width - PLAYER_SIZE) = true := by
        rw [cfg_width_bound s c1]; exact (BETWEEN_iff _ _ _).2 ⟨hx1, hx2⟩
      have hv := play_vertical s hx
      have hw := (wallbounce_vertical s c1).2 hout
      rw [tick_playing rnd s hg, hv.1, hv.2, hw.1, hw.2]
      exact ⟨rfl, xor_two_and_two _⟩
  · intro hin
    rcases hg with hg | ⟨hg, hx1, hx2⟩
    · rw [tick_title rnd s hg, bounceplayer_eq s c1, if_pos hin]
      exact ⟨rfl, rfl⟩
    · have hx : BETWEEN (s.player.x + stepx s) 0 (toInt s.winsz.width - PLAYER_SIZE) = true := by
        rw [cfg_width_bound s c1]; exact (BETWEEN_iff _ _ _).2 ⟨hx1, hx2⟩
      have hv := play_vertical s hx
      have hw := (wallbounce_vertical s c1).1 hin
      rw [tick_playing rnd s hg, hv.1, hv.2, hw.1, hw.2]
      exact ⟨rfl, rfl⟩

/-- Witness for C16: the bounce of `lowPlaying` off the bottom of the range. -/
theorem C16_vertical_bounce_witness :
    (tick (fun _ => 0) lowPlaying).player.y = lowPlaying.player.y - stepy lowPlaying
    ∧ (tick (fun _ => 0) lowPlaying).player.direction &&& 2
        = 2 - (lowPlaying.player.direction &&& 2) :=
  (C16_vertical_bounce (fun _ => 0) lowPlaying (by decide)
    (Or.inr ⟨by decide, by decide, by decide⟩)).2.1 (by decide)

/-! ## Claim C15: the position during the Dead state -/

/-- A `dowipe` tick that stays in Dead changes nothing of the player but the counter, which
it raises by 1. -/
theorem dowipe_stay (rnd : Nat → Nat) (s : State) (hg : s.gamestate = Gamestate.GSDead)
    (hd : (dowipe rnd s).gamestate = Gamestate.GSDead) :
    (dowipe rnd s).player = { s.player with deadtime := s.player.deadtime + 1 } := by
  have hne : Gamestate.GSTitle ≠ Gamestate.GSDead := by decide
  unfold dowipe at hd ⊢
  dsimp only at hd ⊢
  by_cases h0 : s.player.deadtime = 0
  · have hw : (0 : Int) + 1 < 10 := by decide
    simp only [if_pos h0, h0, hw, if_true]
  · simp only [if_neg h0] at hd ⊢
    by_cases hw : s.player.deadtime + 1 < 10
    · simp only [if_pos hw]
    · simp only [if_neg hw] at hd ⊢
      split
      · rename_i hdone
        rw [if_pos hdone] at hd
        exact absurd ((nextstate_dead_fields _ (by exact hg)).1.symm.trans hd) hne
      · rfl

theorem handle_player_pos (e : Event) (s : State) :
    (handle e s).player.x = s.player.x ∧ (handle e s).player.y = s.player.y := by
  cases e with
  | keypress ks =>
    show (keypress ks s).player.x = _ ∧ (keypress ks s).player.y = _
    by_cases h : s.gamestate = Gamestate.GSTitle ∧ ks = XK_Return
    · unfold keypress
      dsimp only
      rw [if_pos h, nextstate_of_title s h.1]
      split_ifs <;> exact ⟨rfl, rfl⟩
    · unfold keypress
      dsimp only
      rw [if_neg h]
      split_ifs <;> exact ⟨rfl, rfl⟩
  | keyrelease ks =>
    show (keyrelease ks s).player.x = _ ∧ (keyrelease ks s).player.y = _
    unfold keyrelease
    split_ifs <;> exact ⟨rfl, rfl⟩
  | message del =>
    show (message del s).player.x = _ ∧ (message del s).player.y = _
    unfold message
    split <;> exact ⟨rfl, rfl⟩
  | other => exact ⟨rfl, rfl⟩

theorem handle_into_dead (e : Event) (s : State)
    (hd : (handle e s).gamestate = Gamestate.GSDead) : s.gamestate = Gamestate.GSDead := by
  cases e with
  | keypress ks =>
    rcases keypress_gamestate ks s with h | h
    · exact h.symm.trans hd
    · have hd2 : (keypress ks s).gamestate = Gamestate.GSDead := hd
      rw [h.2.2] at hd2
      exact absurd hd2 (by decide)
  | keyrelease ks =>
    have hd2 : (keyrelease ks s).gamestate = Gamestate.GSDead := hd
    unfold keyrelease at hd2
    split_ifs at hd2 <;> exact hd2
  | message del =>
    have hd2 : (message del s).gamestate = Gamestate.GSDead := hd
    unfold message at hd2
    split at hd2 <;> exact hd2
  | other => exact hd

/-- In every reachable Dead state the player's `x` is outside the arena: the exit that
caused the death is never undone while the game is in Dead. -/
theorem reachable_dead_outside (s : State) (h : Reachable s)
    (hd : s.gamestate = Gamestate.GSDead) : ¬ (0 ≤ s.player.x ∧ s.player.x ≤ 1245) := by
  induction h with
  | init => exact absurd hd (by decide)
  | event e s _ ih =>
    rw [(handle_player_pos e s).1]
    exact ih (handle_into_dead e s hd)
  | tick rnd s hr ih =>
    have hi := reachable_inv s hr
    cases hg : s.gamestate
    · rw [tick_title rnd s hg, bounceplayer_eq s hi.core.cfg.winsz] at hd
      split at hd
      · have hd2 : s.gamestate = Gamestate.GSDead := hd
        rw [hg] at hd2; exact absurd hd2 (by decide)
      · have hd2 : s.gamestate = Gamestate.GSDead := hd
        rw [hg] at hd2; exact absurd hd2 (by decide)
    · rw [tick_playing rnd s hg] at hd ⊢
      have hne : Gamestate.GSPlaying ≠ Gamestate.GSDead := by decide
      cases hx : BETWEEN (s.player.x + stepx s) 0 (toInt s.winsz.width - PLAYER_SIZE)
      · rw [play_exit s hg hx]
        show ¬ (0 ≤ s.player.x + stepx s ∧ s.player.x + stepx s ≤ 1245)
        intro hin
        rw [cfg_width_bound s hi.core.cfg.winsz] at hx
        have := (BETWEEN_iff _ _ _).2 hin
        rw [hx] at this
        exact absurd this (by decide)
      · cases ht : touchingbar (wallbounce s)
        · rw [play_miss s hx ht, (wallbounce_keeps s).1, hg] at hd
          exact absurd hd hne
        · rw [play_touch s hx ht] at hd
          have hd2 : (wallbounce s).gamestate = Gamestate.GSDead := hd
          rw [(wallbounce_keeps s).1, hg] at hd2
          exact absurd hd2 hne
    · rw [tick_dead rnd s hg] at hd ⊢
      rw [dowipe_stay rnd s hg hd]
      exact ih hg

/-- C15 (counterexample): `afterDeath` is the reachable state at the end of the tick of the
first death; the next tick is spent in the Dead state (it is a `dowipe` tick and the game
stays in Dead) and at its end the player's `x` is still 1252, outside `[0, 1245]`. -/
theorem C15_dead_position_counterexample :
    Reachable afterDeath
    ∧ afterDeath.gamestate = Gamestate.GSDead
    ∧ (tick (fun _ => 0) afterDeath).gamestate = Gamestate.GSDead
    ∧ (tick (fun _ => 0) afterDeath).player.x = 1252
    ∧ ¬ (0 ≤ (tick (fun _ => 0) afterDeath).player.x
        ∧ (tick (fun _ => 0) afterDeath).player.x ≤ 1245) :=
  ⟨afterDeath_reachable, by decide, by decide, by decide, by decide⟩

/-- C15 (amended): at the end of every tick after which the game is in Title or Playing the
player position is within `[0, 1245] x [0, 685]`.  In every reachable Dead state, that is at
the end of the tick in which the horizontal exit triggers the Dead transition and of every
tick spent in Dead after it, the player's `x` is outside `[0, 1245]`: a tick that stays in
Dead leaves the position as it was, and only the entry into Title puts the player back. -/
theorem C15_position_by_game_state (s : State) (h : Reachable s) :
    (s.gamestate ≠ Gamestate.GSDead →
      0 ≤ s.player.x ∧ s.player.x ≤ 1245 ∧ 0 ≤ s.player.y ∧ s.player.y ≤ 685)
    ∧ (s.gamestate = Gamestate.GSDead → ¬ (0 ≤ s.player.x ∧ s.player.x ≤ 1245))
    ∧ (s.gamestate = Gamestate.GSDead → ∀ rnd : Nat → Nat,
        (tick rnd s).gamestate = Gamestate.GSDead →
        (tick rnd s).player.x = s.player.x ∧ (tick rnd s).player.y = s.player.y) := by
  refine ⟨(reachable_inv s h).pos, reachable_dead_outside s h, ?_⟩
  intro hg rnd hd
  rw [tick_dead rnd s hg] at hd ⊢
  rw [dowipe_stay rnd s hg hd]
  exact ⟨rfl, rfl⟩

/-- Witness for C15: the state at the first death. -/
theorem C15_position_by_game_state_witness :
    Reachable afterDeath
    ∧ ¬ (0 ≤ afterDeath.player.x ∧ afterDeath.player.x ≤ 1245)
    ∧ (tick (fun _ => 0) afterDeath).player.x = afterDeath.player.x :=
  ⟨afterDeath_reachable,
    (C15_position_by_game_state afterDeath afterDeath_reachable).2.1 (by decide),
    ((C15_position_by_game_state afterDeath afterDeath_reachable).2.2 (by decide) (fun _ => 0)
      (by decide)).1⟩

/-! ## A wipe tick on 80 columns, offset by offset -/

theorem getD_map_of_lt (f : Int → Int) (offs : List Int) (i : Nat) (hi : i < offs.length) :
    (offs.map f).getD i 0 = f (offs.getD i 0) := by
  rw [List.getD_eq_getElem?_getD, List.getD_eq_getElem?_getD, List.getElem?_map,
    List.getElem?_eq_getElem hi]
  rfl

theorem all_done_iff (offs : List Int) :
    offs.all (fun o => decide (720 ≤ o) && decide (0 ≤ o)) = true
      ↔ ∀ j, j < offs.length → 720 ≤ offs.getD j 0 := by
  rw [List.all_eq_true]
  constructor
  · intro h j hj
    have hm : offs[j] ∈ offs := List.getElem_mem hj
    have := h _ hm
    simp only [Bool.and_eq_true, decide_eq_true_eq] at this
    rw [List.getD_eq_getElem?_getD, List.getElem?_eq_getElem hj]
    exact this.1
  · intro h o ho
    obtain ⟨j, hj, rfl⟩ := List.getElem_of_mem ho
    have := h j hj
    rw [List.getD_eq_getElem?_getD, List.getElem?_eq_getElem hj] at this
    simp only [Bool.and_eq_true, decide_eq_true_eq]
    have h2 : 720 ≤ offs[j] := this
    omega

/-- A wipe tick whose counter has passed the warm-up, on 80 columns: every offset goes
through `colstep`; the game enters the title exactly when every offset was at least 720, and
stays in Dead otherwise; the counter is one more than before when the game stays in Dead and
-1 after the entry into the title. -/
theorem tick_dead_run (rnd : Nat → Nat) (s : State) (hg : s.gamestate = Gamestate.GSDead)
    (c1 : s.winsz = ⟨1280, 720⟩) (c3 : s.wipe.bs = 16) (c4 : s.wipe.offs.length = 80)
    (h9 : 9 ≤ s.player.deadtime) :
    (tick rnd s).wipe.offs = s.wipe.offs.map (colstep 720 16)
    ∧ ((tick rnd s).gamestate = Gamestate.GSTitle
        ↔ ∀ j, j < 80 → 720 ≤ s.wipe.offs.getD j 0)
    ∧ ((tick rnd s).gamestate ≠ Gamestate.GSTitle → (tick rnd s).gamestate = Gamestate.GSDead
        ∧ (tick rnd s).player.deadtime = s.player.deadtime + 1)
    ∧ ((tick rnd s).gamestate = Gamestate.GSTitle → (tick rnd s).player.deadtime = -1) := by
  have hall := all_done_iff s.wipe.offs
  rw [c4] at hall
  rw [tick_dead rnd s hg, dowipe_run rnd s c1 c3 c4 h9]
  by_cases hd : s.wipe.offs.all (fun o => decide (720 ≤ o) && decide (0 ≤ o)) = true
  · rw [if_pos hd]
    have hf := nextstate_dead_fields
      { s with
        wipe := { s.wipe with offs := s.wipe.offs.map (colstep 720 16) },
        player := { s.player with deadtime := s.player.deadtime + 1 } } hg
    refine ⟨?_, ?_, ?_, ?_⟩
    · rw [nextstate_of_dead _ (by exact hg)]
    · exact ⟨fun _ => hall.1 hd, fun _ => hf.1⟩
    · intro hne; exact absurd hf.1 hne
    · intro _; exact hf.2.2.2.2.2.2
  · rw [if_neg hd]
    have hne : Gamestate.GSDead ≠ Gamestate.GSTitle := by decide
    refine ⟨rfl, ?_, ?_, ?_⟩
    · constructor
      · intro ht
        have ht2 : s.gamestate = Gamestate.GSTitle := ht
        rw [hg] at ht2
        exact absurd ht2 hne
      · intro h; exact absurd (hall.2 h) hd
    · intro _; exact ⟨hg, rfl⟩
    · intro ht
      have ht2 : s.gamestate = Gamestate.GSTitle := ht
      rw [hg] at ht2
      exact absurd ht2 hne

/-! ## Claim C13: columns that are already wiped -/

theorem titleAgain_reached : tick (fun _ => 0) wipeDone = titleAgain := by decide

set_option maxRecDepth 1000000 in
theorem secondDeath_reached :
    ticks (fun _ _ => 0) 169 (handle (Event.keypress XK_Return) titleAgain) = secondDeath := by
  decide!

theorem staleWipe_reached : tick (fun _ => 0) secondDeath = staleWipe := by decide

theorem staleWipe_reachable : Reachable staleWipe := by
  rw [← staleWipe_reached, ← secondDeath_reached, ← titleAgain_reached]
  exact Reachable.tick _ _
    (reachable_ticks _ _ _ (Reachable.event _ _ (Reachable.tick _ _ wipeDone_reachable)))

/-- C13 (counterexample): `staleWipe` is reachable (it is the state one tick after the
second death); the game is in Dead and every column still holds the 720 of the first wipe,
so column 0 has `offset >= 720`.  The next tick is spent in Dead and draws the new stagger
values: with a random source that always returns 7 it leaves -7 in column 0, which is
smaller than before. -/
theorem C13_wiped_column_counterexample :
    Reachable staleWipe
    ∧ staleWipe.gamestate = Gamestate.GSDead
    ∧ staleWipe.wipe.offs.getD 0 0 = 720
    ∧ (tick (fun _ => 7) staleWipe).gamestate = Gamestate.GSDead
    ∧ (tick (fun _ => 7) staleWipe).wipe.offs.getD 0 0 = -7
    ∧ ¬ (staleWipe.wipe.offs.getD 0 0 ≤ (tick (fun _ => 7) staleWipe).wipe.offs.getD 0 0) :=
  ⟨staleWipe_reachable, by decide, by decide, by decide, by decide, by decide⟩

theorem colstep_done (o : Int) (h : 720 ≤ o) : colstep 720 16 o = o := by
  unfold colstep
  rw [if_neg (by omega), if_neg (by omega)]

/-- C13 (amended): in every reachable Dead state and for every column `i` (of the 80) with
`offset[i] >= 720`: a further tick leaves `offset[i]` unchanged, hence not smaller, unless
it is the tick that finds the counter at 0 (the second tick after a death), which draws a
new stagger value and leaves minus a value in `0..9` in the column; and the column never
clears the `done` flag: a tick past the warm-up is the completion tick exactly when every
other column is at or beyond 720 as well. -/
theorem C13_wiped_column_stays (rnd : Nat → Nat) (s : State) (h : Reachable s)
    (hg : s.gamestate = Gamestate.GSDead) (i : Nat) (hi : i < 80)
    (ho : 720 ≤ s.wipe.offs.getD i 0) :
    (s.player.deadtime ≠ 0 →
      (tick rnd s).wipe.offs.getD i 0 = s.wipe.offs.getD i 0)
    ∧ (s.player.deadtime = 0 →
      (tick rnd s).wipe.offs.getD i 0 = -((rnd i % 10 : Nat) : Int))
    ∧ (9 ≤ s.player.deadtime →
      ((tick rnd s).gamestate = Gamestate.GSTitle
        ↔ ∀ j, j < 80 → j ≠ i → 720 ≤ s.wipe.offs.getD j 0)) := by
  have hc := (reachable_inv s h).core.cfg
  have c1 := hc.winsz
  have c3 := hc.bs
  have c4 := hc.noffs
  refine ⟨?_, ?_, ?_⟩
  · intro hd
    by_cases hw : s.player.deadtime + 1 < 10
    · rw [tick_dead rnd s hg, dowipe_wait rnd s hd hw]
    · have hr := tick_dead_run rnd s hg c1 c3 c4 (by omega)
      rw [hr.1, getD_map_of_lt _ _ _ (by rw [c4]; exact hi), colstep_done _ ho]
  · intro hd
    rw [tick_dead rnd s hg, dowipe_zero rnd s c1 c3 c4 hd]
    exact stagger_getD rnd 80 i hi
  · intro h9
    rw [(tick_dead_run rnd s hg c1 c3 c4 h9).2.1]
    constructor
    · exact fun hall j hj _ => hall j hj
    · intro hall j hj
      by_cases hji : j = i
      · rw [hji]; exact ho
      · exact hall j hj hji

/-- Witness for C13: the last state of the first wipe, column 0. -/
theorem C13_wiped_column_stays_witness :
    Reachable wipeDone
    ∧ 720 ≤ wipeDone.wipe.offs.getD 0 0
    ∧ (tick (fun _ => 0) wipeDone).wipe.offs.getD 0 0 = wipeDone.wipe.offs.getD 0 0 :=
  ⟨wipeDone_reachable, by decide,
    (C13_wiped_column_stays (fun _ => 0) wipeDone wipeDone_reachable (by decide) 0 (by decide)
      (by decide)).1 (by decide)⟩

/-! ## Claim C18: one tick of the wipe -/

theorem wipehead_deadtime (rnd : Nat → Nat) (s : State) :
    (wipehead rnd s).player.deadtime = s.player.deadtime + 1 := by
  unfold wipehead
  dsimp only
  split <;> rfl

theorem dowipe_head (rnd : Nat → Nat) (s : State) :
    dowipe rnd s =
      if (wipehead rnd s).player.deadtime < 10 then wipehead rnd s
      else if (wipeloop (toInt (wipehead rnd s).winsz.height) (wipehead rnd s).wipe.bs
                (blocks s).toNat 0 (wipehead rnd s).wipe.offs true).2 = true then
        nextstate { (wipehead rnd s) with
          wipe := { (wipehead rnd s).wipe with
            offs := (wipeloop (toInt (wipehead rnd s).winsz.height) (wipehead rnd s).wipe.bs
                      (blocks s).toNat 0 (wipehead rnd s).wipe.offs true).1 } }
      else
        { (wipehead rnd s) with
          wipe := { (wipehead rnd s).wipe with
            offs := (wipeloop (toInt (wipehead rnd s).winsz.height) (wipehead rnd s).wipe.bs
                      (blocks s).toNat 0 (wipehead rnd s).wipe.offs true).1 } } := rfl

/-- C18: a `dowipe` tick (Dead, arena 1280x720, block size 16, 80 columns) first raises
`deadtime` by exactly 1 (`wipehead`).  If the raised value is below 10 the tick does
nothing further: it advances no column (the offsets are the old ones, or the freshly drawn
stagger values when the counter was 0) and makes no transition.  Otherwise every one of the
80 columns is treated by its offset: below 0 it is increased by 1, in `[0, 720)` it is
increased by the block size 16, at 720 or more it is left unchanged; and the tick enters
the title if and only if every offset was at least 720 at the start of the tick, in which
case `nextstate` leaves `deadtime = -1`, and stays in Dead with the raised counter
otherwise. -/
theorem C18_wipe_tick (rnd : Nat → Nat) (s : State) (hg : s.gamestate = Gamestate.GSDead)
    (c1 : s.winsz = ⟨1280, 720⟩) (c3 : s.wipe.bs = 16) (c4 : s.wipe.offs.length = 80) :
    (wipehead rnd s).player.deadtime = s.player.deadtime + 1
    ∧ (s.player.deadtime + 1 < 10 →
        tick rnd s = wipehead rnd s
        ∧ (tick rnd s).gamestate = Gamestate.GSDead
        ∧ (tick rnd s).player.deadtime = s.player.deadtime + 1
        ∧ (s.player.deadtime ≠ 0 → (tick rnd s).wipe.offs = s.wipe.offs)
        ∧ (s.player.deadtime = 0 → (tick rnd s).wipe.offs = stagger rnd 80))
    ∧ (10 ≤ s.player.deadtime + 1 →
        (∀ i, i < 80 →
          (s.wipe.offs.getD i 0 < 0 →
            (tick rnd s).wipe.offs.getD i 0 = s.wipe.offs.getD i 0 + 1)
          ∧ (0 ≤ s.wipe.offs.getD i 0 → s.wipe.offs.getD i 0 < 720 →
            (tick rnd s).wipe.offs.getD i 0 = s.wipe.offs.getD i 0 + 16)
          ∧ (720 ≤ s.wipe.offs.getD i 0 →
            (tick rnd s).wipe.offs.getD i 0 = s.wipe.offs.getD i 0))
        ∧ ((tick rnd s).gamestate = Gamestate.GSTitle
            ↔ ∀ j, j < 80 → 720 ≤ s.wipe.offs.getD j 0)
        ∧ ((tick rnd s).gamestate ≠ Gamestate.GSTitle →
            (tick rnd s).gamestate = Gamestate.GSDead
            ∧ (tick rnd s).player.deadtime = s.player.deadtime + 1)
        ∧ ((tick rnd s).gamestate = Gamestate.GSTitle →
            (tick rnd s).player.deadtime = -1)) := by
  have hh := wipehead_deadtime rnd s
  refine ⟨hh, ?_, ?_⟩
  · intro hw
    have e : tick rnd s = wipehead rnd s := by
      rw [tick_dead rnd s hg, dowipe_head, if_pos (by rw [hh]; exact hw)]
    refine ⟨e, ?_, ?_, ?_, ?_⟩
    · by_cases hd : s.player.deadtime = 0
      · rw [tick_dead rnd s hg, dowipe_zero rnd s c1 c3 c4 hd]; exact hg
      · rw [tick_dead rnd s hg, dowipe_wait rnd s hd hw]; exact hg
    · rw [e]; exact hh
    · intro hd
      rw [tick_dead rnd s hg, dowipe_wait rnd s hd hw]
    · intro hd
      rw [tick_dead rnd s hg, dowipe_zero rnd s c1 c3 c4 hd]
  · intro hw
    have hr := tick_dead_run rnd s hg c1 c3 c4 (by omega)
    refine ⟨?_, hr.2.1, hr.2.2.1, hr.2.2.2⟩
    intro i hi
    rw [hr.1, getD_map_of_lt _ _ _ (by rw [c4]; exact hi)]
    unfold colstep
    refine ⟨?_, ?_, ?_⟩
    · intro h; rw [if_pos h]
    · intro h1 h2; rw [if_neg (by omega), if_pos h2]
    · intro h; rw [if_neg (by omega), if_neg (by omega)]

/-- Witness for C18: the first tick after the first death raises the counter from -1 to 0
and does nothing further. -/
theorem C18_wipe_tick_witness :
    (wipehead (fun _ => 0) afterDeath).player.deadtime = afterDeath.player.deadtime + 1
    ∧ tick (fun _ => 0) afterDeath = wipehead (fun _ => 0) afterDeath
    ∧ (tick (fun _ => 0) afterDeath).gamestate = Gamestate.GSDead
    ∧ (tick (fun _ => 0) wipeDone).gamestate = Gamestate.GSTitle :=
  ⟨(C18_wipe_tick (fun _ => 0) afterDeath (by decide) (by decide) (by decide) (by decide)).1,
    ((C18_wipe_tick (fun _ => 0) afterDeath (by decide) (by decide) (by decide)
      (by decide)).2.1 (by decide)).1,
    ((C18_wipe_tick (fun _ => 0) afterDeath (by decide) (by decide) (by decide)
      (by decide)).2.1 (by decide)).2.1,
    ((C18_wipe_tick (fun _ => 0) wipeDone (by decide) (by decide) (by decide)
      (by decide)).2.2 (by decide)).2.1.2 (by decide)⟩

/-! ## Claim C19: what `nextstate` leaves alone -/

theorem nextstate_frame (s : State) :
    (nextstate s).player.direction = s.player.direction
    ∧ (nextstate s).activebar = s.activebar
    ∧ (nextstate s).barmove = s.barmove
    ∧ (nextstate s).bars.1.x = s.bars.1.x ∧ (nextstate s).bars.1.edge_x = s.bars.1.edge_x
    ∧ (nextstate s).bars.2.x = s.bars.2.x ∧ (nextstate s).bars.2.edge_x = s.bars.2.edge_x
    ∧ (nextstate s).wipe = s.wipe
    ∧ (nextstate s).winsz = s.winsz ∧ (nextstate s).barsz = s.barsz
    ∧ (nextstate s).quit = s.quit := by
  cases hg : s.gamestate
  · rw [nextstate_of_title s hg]; exact ⟨rfl, rfl, rfl, rfl, rfl, rfl, rfl, rfl, rfl, rfl, rfl⟩
  · rw [nextstate_of_playing s hg]; exact ⟨rfl, rfl, rfl, rfl, rfl, rfl, rfl, rfl, rfl, rfl, rfl⟩
  · rw [nextstate_of_dead s hg]; exact ⟨rfl, rfl, rfl, rfl, rfl, rfl, rfl, rfl, rfl, rfl, rfl⟩

/-- A `dowipe` tick, whether it stays in Dead or enters the title, leaves the direction,
the active bar and `barmove` alone. -/
theorem dowipe_frame (rnd : Nat → Nat) (s : State) :
    (dowipe rnd s).player.direction = s.player.direction
    ∧ (dowipe rnd s).activebar = s.activebar
    ∧ (dowipe rnd s).barmove = s.barmove := by
  have hh : (wipehead rnd s).player.direction = s.player.direction
      ∧ (wipehead rnd s).activebar = s.activebar
      ∧ (wipehead rnd s).barmove = s.barmove := by
    unfold wipehead
    dsimp only
    split <;> exact ⟨rfl, rfl, rfl⟩
  rw [dowipe_head]
  split
  · exact hh
  · split
    · have hf := nextstate_frame { (wipehead rnd s) with
        wipe := { (wipehead rnd s).wipe with
          offs := (wipeloop (toInt (wipehead rnd s).winsz.height) (wipehead rnd s).wipe.bs
                    (blocks s).toNat 0 (wipehead rnd s).wipe.offs true).1 } }
      exact ⟨hf.1.trans hh.1, hf.2.1.trans hh.2.1, hf.2.2.1.trans hh.2.2⟩
    · exact hh

theorem handle_dead_frame (e : Event) (s : State) (hg : s.gamestate = Gamestate.GSDead) :
    (handle e s).player.direction = s.player.direction
    ∧ (handle e s).activebar = s.activebar
    ∧ (handle e s).barmove = s.barmove := by
  have hnt : ¬ s.gamestate = Gamestate.GSTitle := by rw [hg]; decide
  have hnp : ¬ s.gamestate = Gamestate.GSPlaying := by rw [hg]; decide
  cases e with
  | keypress ks =>
    show (keypress ks s).player.direction = _ ∧ (keypress ks s).activebar = _
      ∧ (keypress ks s).barmove = _
    have h1 : ¬ (s.gamestate = Gamestate.GSTitle ∧ ks = XK_Return) := fun h => hnt h.1
    unfold keypress
    dsimp only
    rw [if_neg h1]
    split_ifs <;> exact ⟨rfl, rfl, rfl⟩
  | keyrelease ks =>
    show (keyrelease ks s).player.direction = _ ∧ (keyrelease ks s).activebar = _
      ∧ (keyrelease ks s).barmove = _
    unfold keyrelease
    rw [if_neg hnp]
    exact ⟨rfl, rfl, rfl⟩
  | message del =>
    show (message del s).player.direction = _ ∧ (message del s).activebar = _
      ∧ (message del s).barmove = _
    unfold message
    split <;> exact ⟨rfl, rfl, rfl⟩
  | other => exact ⟨rfl, rfl, rfl⟩

theorem handle_title_frame (e : Event) (s : State) (hg : s.gamestate = Gamestate.GSTitle) :
    (handle e s).player.direction = s.player.direction
    ∧ (handle e s).activebar = s.activebar
    ∧ (handle e s).barmove = s.barmove := by
  have hnp : ¬ s.gamestate = Gamestate.GSPlaying := by rw [hg]; decide
  cases e with
  | keypress ks =>
    show (keypress ks s).player.direction = _ ∧ (keypress ks s).activebar = _
      ∧ (keypress ks s).barmove = _
    by_cases h : s.gamestate = Gamestate.GSTitle ∧ ks = XK_Return
    · have hu : ¬ ks = XK_Up := by rw [h.2]; decide
      have hd : ¬ ks = XK_Down := by rw [h.2]; decide
      unfold keypress
      dsimp only
      rw [if_pos h, nextstate_of_title s h.1]
      split_ifs <;> exact ⟨rfl, rfl, rfl⟩
    · unfold keypress
      dsimp only
      rw [if_neg h]
      split_ifs <;> exact ⟨rfl, rfl, rfl⟩
  | keyrelease ks =>
    show (keyrelease ks s).player.direction = _ ∧ (keyrelease ks s).activebar = _
      ∧ (keyrelease ks s).barmove = _
    unfold keyrelease
    rw [if_neg hnp]
    exact ⟨rfl, rfl, rfl⟩
  | message del =>
    show (message del s).player.direction = _ ∧ (message del s).activebar = _
      ∧ (message del s).barmove = _
    unfold message
    split <;> exact ⟨rfl, rfl, rfl⟩
  | other => exact ⟨rfl, rfl, rfl⟩

theorem bounceplayer_frame (s : State) :
    (bounceplayer s).player.direction &&& 1 = s.player.direction &&& 1
    ∧ (bounceplayer s).activebar = s.activebar
    ∧ (bounceplayer s).barmove = s.barmove := by
  unfold bounceplayer
  dsimp only
  split
  · exact ⟨xor_two_and_one _, rfl, rfl⟩
  · exact ⟨rfl, rfl, rfl⟩

set_option maxRecDepth 1000000 in
/-- The vertical axis can change in the title: 35 bounce ticks after the entry into the
title the direction of `titleAgain` has gone from 1 (Right, Down) to 3 (Right, Up). -/
theorem title_bounce_flips_vertical :
    titleAgain.player.direction = 1
    ∧ (ticks (fun _ _ => 0) 35 titleAgain).gamestate = Gamestate.GSTitle
    ∧ (ticks (fun _ _ => 0) 35 titleAgain).player.direction = 3 := by decide!

theorem deadPhase_frame (s t : State) (ht : DeadPhase s t) :
    t.player.direction = s.player.direction
    ∧ t.activebar = s.activebar
    ∧ t.barmove = s.barmove := by
  induction ht with
  | start => exact ⟨rfl, rfl, rfl⟩
  | event e t _ hd ih =>
    have h := handle_dead_frame e t hd
    exact ⟨h.1.trans ih.1, h.2.1.trans ih.2.1, h.2.2.trans ih.2.2⟩
  | tick rnd t _ hd ih =>
    have h := dowipe_frame rnd t
    rw [tick_dead rnd t hd]
    exact ⟨h.1.trans ih.1, h.2.1.trans ih.2.1, h.2.2.trans ih.2.2⟩

theorem titlePhase_frame (s t : State) (ht : TitlePhase s t) :
    t.player.direction &&& 1 = s.player.direction &&& 1
    ∧ t.activebar = s.activebar
    ∧ t.barmove = s.barmove := by
  induction ht with
  | start => exact ⟨rfl, rfl, rfl⟩
  | event e t _ hd ih =>
    have h := handle_title_frame e t hd
    exact ⟨by rw [h.1]; exact ih.1, h.2.1.trans ih.2.1, h.2.2.trans ih.2.2⟩
  | tick rnd t _ hd ih =>
    have h := bounceplayer_frame t
    rw [tick_title rnd t hd]
    exact ⟨h.1.trans ih.1, h.2.1.trans ih.2.1, h.2.2.trans ih.2.2⟩

/-- C19: `nextstate`, in each of its three transitions, leaves `player.direction`, the
active-bar selection, `barmove`, the bars' `x` and `edge_x` and the wipe offsets as they
were.  Consequently, from a Dead state on and as long as the game has not left Dead, up to
and including the entry into the title that starts the new round, the direction, the active
bar and `barmove` keep the values they had at the death; and from that title on, up to and
including the entry into Playing, `barmove`, the active bar and the horizontal direction
still keep them, so a bar-move intent held at the death is in force when play begins. -/
theorem C19_nextstate_frame (s : State) :
    ((nextstate s).player.direction = s.player.direction
      ∧ (nextstate s).activebar = s.activebar
      ∧ (nextstate s).barmove = s.barmove
      ∧ (nextstate s).bars.1.x = s.bars.1.x ∧ (nextstate s).bars.1.edge_x = s.bars.1.edge_x
      ∧ (nextstate s).bars.2.x = s.bars.2.x ∧ (nextstate s).bars.2.edge_x = s.bars.2.edge_x
      ∧ (nextstate s).wipe.offs = s.wipe.offs)
    ∧ (s.gamestate = Gamestate.GSDead → ∀ t : State, DeadPhase s t →
        t.player.direction = s.player.direction
        ∧ t.activebar = s.activebar
        ∧ t.barmove = s.barmove)
    ∧ (s.gamestate = Gamestate.GSDead → ∀ t u : State, DeadPhase s t →
        t.gamestate = Gamestate.GSTitle → TitlePhase t u →
        u.player.direction &&& 1 = s.player.direction &&& 1
        ∧ u.activebar = s.activebar
        ∧ u.barmove = s.barmove) := by
  have hf := nextstate_frame s
  refine ⟨⟨hf.1, hf.2.1, hf.2.2.1, hf.2.2.2.1, hf.2.2.2.2.1, hf.2.2.2.2.2.1, hf.2.2.2.2.2.2.1,
    by rw [hf.2.2.2.2.2.2.2.1]⟩, fun _ t ht => deadPhase_frame s t ht, ?_⟩
  intro _ t u ht _ hu
  have h1 := deadPhase_frame s t ht
  have h2 := titlePhase_frame t u hu
  exact ⟨by rw [h2.1, h1.1], h2.2.1.trans h1.2.1, h2.2.2.trans h1.2.2⟩

/-- Witness for C19: from the last state of the first wipe into the new title, and on
through the Return key into the second round. -/
theorem C19_nextstate_frame_witness :
    ((tick (fun _ => 0) wipeDone).gamestate = Gamestate.GSTitle
      ∧ (tick (fun _ => 0) wipeDone).player.direction = wipeDone.player.direction
      ∧ (tick (fun _ => 0) wipeDone).activebar = wipeDone.activebar
      ∧ (tick (fun _ => 0) wipeDone).barmove = wipeDone.barmove)
    ∧ ((handle (Event.keypress XK_Return) (tick (fun _ => 0) wipeDone)).gamestate
          = Gamestate.GSPlaying
      ∧ (handle (Event.keypress XK_Return) (tick (fun _ => 0) wipeDone)).player.direction &&& 1
          = wipeDone.player.direction &&& 1
      ∧ (handle (Event.keypress XK_Return) (tick (fun _ => 0) wipeDone)).activebar
          = wipeDone.activebar
      ∧ (handle (Event.keypress XK_Return) (tick (fun _ => 0) wipeDone)).barmove
          = wipeDone.barmove) :=
  ⟨⟨by decide,
      (C19_nextstate_frame wipeDone).2.1 (by decide) _
        (DeadPhase.tick (fun _ => 0) wipeDone DeadPhase.start (by decide))⟩,
    ⟨by decide,
      (C19_nextstate_frame wipeDone).2.2 (by decide) _ _
        (DeadPhase.tick (fun _ => 0) wipeDone DeadPhase.start (by decide)) (by decide)
        (TitlePhase.event (Event.keypress XK_Return) _ TitlePhase.start (by decide))⟩⟩

/-! ## Claim C20: the call that ends the wipe -/

/-- C20: count the `dowipe` calls (the ticks) from the entry into Dead, where `nextstate`
has left `deadtime = -1` (arena 1280x720, block size 16, 80 columns).  The second call
draws the stagger values `s_i = rnds 1 i % 10`, each in `0..9`; with `M` their maximum, the
game is still in Dead after every number of calls below `56 + M` and in Title after call
number `56 + M`, which lies between 56 and 65; at the start of that call, and after it,
every column offset is exactly 720. -/
theorem C20_wipe_ends_at_call (rnds : Nat → Nat → Nat) (s : State)
    (hg : s.gamestate = Gamestate.GSDead) (c1 : s.winsz = ⟨1280, 720⟩) (c3 : s.wipe.bs = 16)
    (c4 : s.wipe.offs.length = 80) (hd : s.player.deadtime = -1) :
    (ticks rnds 2 s).wipe.offs = stagger (rnds 1) 80
    ∧ (∀ i, i < 80 → (stagger (rnds 1) 80).getD i 0 = -((rnds 1 i % 10 : Nat) : Int)
        ∧ rnds 1 i % 10 ≤ 9 ∧ rnds 1 i % 10 ≤ maxStagger (rnds 1) 80)
    ∧ (∃ i, i < 80 ∧ rnds 1 i % 10 = maxStagger (rnds 1) 80)
    ∧ (∀ n, n < 56 + maxStagger (rnds 1) 80 → (ticks rnds n s).gamestate = Gamestate.GSDead)
    ∧ (ticks rnds (56 + maxStagger (rnds 1) 80) s).gamestate = Gamestate.GSTitle
    ∧ (56 ≤ 56 + maxStagger (rnds 1) 80 ∧ 56 + maxStagger (rnds 1) 80 ≤ 65)
    ∧ (ticks rnds (55 + maxStagger (rnds 1) 80) s).wipe.offs = List.replicate 80 720
    ∧ (ticks rnds (56 + maxStagger (rnds 1) 80) s).wipe.offs = List.replicate 80 720 := by
  have hc := ticks_complete rnds s hg c1 c3 c4 hd
  have e55 : 55 + maxStagger (rnds 1) 80 = maxStagger (rnds 1) 80 + 55 := Nat.add_comm _ _
  have e56 : 56 + maxStagger (rnds 1) 80 = maxStagger (rnds 1) 80 + 56 := Nat.add_comm _ _
  refine ⟨?_, ?_, maxStagger_attained (rnds 1) 80 (by decide), ?_, ?_, ?_, ?_, ?_⟩
  · rw [ticks_warmup rnds s hg c1 c3 c4 hd 0 (by decide)]
    rfl
  · intro i hi
    exact ⟨stagger_getD (rnds 1) 80 i hi, by omega, le_maxStagger (rnds 1) 80 i hi⟩
  · intro n hn
    exact ticks_dead_before rnds s hg c1 c3 c4 hd n (by omega)
  · rw [e56]
    exact ticks_title_at rnds s hg c1 c3 c4 hd
  · have := maxStagger_le (rnds 1) 80
    omega
  · rw [e55, hc.1]
    rfl
  · rw [e56, hc.2, (nextstate_frame _).2.2.2.2.2.2.2.1]
    rfl

set_option maxRecDepth 100000 in
/-- Witness for C20: the first death, every stagger value 9. -/
theorem C20_wipe_ends_at_call_witness :
    (∀ n, n < 56 + maxStagger (fun _ => 9) 80 →
        (ticks (fun _ _ => 9) n afterDeath).gamestate = Gamestate.GSDead)
    ∧ (ticks (fun _ _ => 9) (56 + maxStagger (fun _ => 9) 80) afterDeath).gamestate
        = Gamestate.GSTitle
    ∧ maxStagger (fun _ => 9) 80 = 9 :=
  ⟨(C20_wipe_ends_at_call (fun _ _ => 9) afterDeath (by decide) (by decide) (by decide)
      (by decide) (by decide)).2.2.2.1,
    (C20_wipe_ends_at_call (fun _ _ => 9) afterDeath (by decide) (by decide) (by decide)
      (by decide) (by decide)).2.2.2.2.1,
    by decide⟩

end XPong
